import Mathlib

/-!
# OpenDec compiler (Python) — shallow embedding and verification

This file embeds the core of the OpenDec compiler (lexer, parser,
validator, compilation state and processor from `src/components` and
`src/utils`) as executable Lean definitions, and proves or refutes the
frozen specification claims about it.

Modelling conventions:
* Python `int` is modelled as `ℤ` (or `ℕ` where the source can only
  produce non-negative values, e.g. lexer integer literals).
* Python `float` is modelled as an exact rational `ℚ`.  The only floats
  the compiler produces are decimal literals from the lexer and the
  tempo multiplier `60000 / bpm`; no claim depends on IEEE rounding.
* Python dictionaries are modelled as insertion-ordered association
  lists with overwrite-in-place semantics (`aset`).
* Source positions are not modelled: node equality in the source
  ignores positions, and no claim depends on a position value.
* Exceptions are modelled with `Except`; each Python exception class
  becomes a constructor of `PyErr`.
* Unbounded recursion (recursive imports, self-referential phrases,
  nested parsing) is modelled with an explicit fuel parameter that
  strictly decreases on every recursive call; fuel exhaustion is the
  error `PyErr.outOfFuel`.  Python would recurse forever (or overflow
  the stack) on exactly those inputs.
-/

set_option autoImplicit false

namespace OpenDec

/-- A Python runtime value as stored in token values, node parameters and
phoneme length fields: an `int`, a `float` or a `str`. -/
inductive PyVal where
  | int (n : ℤ)
  | float (q : ℚ)
  | str (s : String)
  deriving DecidableEq

/-- Numeric value of a `PyVal`.  Only ever applied to `int`/`float`
values (Python would raise `TypeError` on a `str` operand; the callers
below guard for that case separately). -/
def PyVal.toQ : PyVal → ℚ
  | .int n => (n : ℚ)
  | .float q => q
  | .str _ => 0

/-- Decimal digit characters of a natural number, most significant
first (the digits of `str(n)` in Python for `n > 0`). -/
def natDigitChars (n : ℕ) : List Char :=
  ((Nat.digits 10 n).map (fun d => Char.ofNat (48 + d))).reverse

/-- Python `str(n)` for a natural number. -/
def natRepr (n : ℕ) : String :=
  if n = 0 then "0" else String.mk (natDigitChars n)

/-- Python `str(n)` for an integer. -/
def intRepr (n : ℤ) : String :=
  if n < 0 then "-" ++ natRepr n.natAbs else natRepr n.toNat

/-- Python `str(x)` for a float value, modelled for exact decimal
values (the only floats the OpenDec lexer can produce).  Python prints
shortest round-trip decimals; that algorithm is not modelled further
and no theorem below relies on this rendering. -/
def floatRepr (q : ℚ) : String :=
  match (List.range 30).find? (fun k => (q * (10 : ℚ) ^ k).den == 1) with
  | some 0 => intRepr q.num ++ ".0"
  | some k =>
      let sign := if q < 0 then "-" else ""
      let scaled : ℕ := q.num.natAbs * 10 ^ k / q.den
      let ip := scaled / 10 ^ k
      let fr := scaled % 10 ^ k
      let frs := natRepr fr
      let pad := String.mk (List.replicate (k - frs.length) '0')
      sign ++ natRepr ip ++ "." ++ pad ++ frs
  | none => "<nondecimal float>"

/-- Python `str(value)` for a token/parameter value. -/
def pyValRepr : PyVal → String
  | .int n => intRepr n
  | .float q => floatRepr q
  | .str s => s

/-! ## Constants (`src/constants.py`) -/

/-- `PHONEMES_CONSONANTS` from `constants.py`. -/
def PHONEMES_CONSONANTS : List String :=
  ["b", "ch", "d", "dh", "dx", "f", "g", "hx", "jh", "k", "l", "lx",
   "m", "n", "nx", "p", "r", "rx", "s", "sh", "t", "th", "tx", "v",
   "w", "yx", "z", "zh"]

/-- `PHONEMES_VOWELS` from `constants.py`. -/
def PHONEMES_VOWELS : List String :=
  ["aa", "ae", "ah", "ao", "aw", "ax", "ay", "eh", "el", "en", "er",
   "ey", "ih", "ir", "iy", "or", "ow", "oy", "rr", "uh", "ur", "uw",
   "yu"]

/-- `PHONEMES_SYMBOLS` from `constants.py` (comma, period, silence,
primary/secondary/emphatic stress). -/
def PHONEMES_SYMBOLS : List String :=
  [",", ".", "_", "\x27", "\x60", "\""]

/-- `PHONEMES` from `constants.py`. -/
def PHONEMES : List String :=
  PHONEMES_CONSONANTS ++ PHONEMES_VOWELS ++ PHONEMES_SYMBOLS

/-- `PHONEMES_NOLENGTH` from `constants.py`. -/
def PHONEMES_NOLENGTH : List String := [",", ".", "\x27", "\x60", "\""]

/-- `PHONEMES_NOPITCH` from `constants.py`. -/
def PHONEMES_NOPITCH : List String := PHONEMES_CONSONANTS ++ PHONEMES_SYMBOLS

/-- `VOICE_DEFAULT_NAMES` from `constants.py`. -/
def VOICE_DEFAULT_NAMES : List String :=
  ["Betty", "Dennis", "Frank", "Harry", "Kit", "Paul", "Rita", "Ursula", "Wendy"]

/-- `VOICE_MINMAX` from `constants.py`: voice parameter → (min, max). -/
def VOICE_MINMAX : List (String × ℤ × ℤ) :=
  [("sx", 0, 1), ("hs", 65, 145), ("f4", 2000, 4650), ("f5", 2500, 4950),
   ("b4", 100, 2048), ("b5", 100, 2048),
   ("br", 0, 72), ("lx", 0, 100), ("sm", 0, 100), ("ri", 0, 100),
   ("nf", 0, 100), ("la", 0, 100),
   ("bf", 0, 40), ("hr", 2, 100), ("sr", 1, 100), ("as", 0, 100),
   ("qu", 0, 100), ("ap", 50, 350), ("pr", 0, 250),
   ("lo", 0, 86), ("gv", 0, 86), ("gh", 0, 86), ("gf", 0, 86),
   ("g1", 0, 86), ("g2", 0, 86), ("g3", 0, 86), ("g4", 0, 86)]

/-- `VOICE_PARAMETERS` from `constants.py`. -/
def VOICE_PARAMETERS : List String := VOICE_MINMAX.map (·.1)

/-- Modelled from the spec: `VOICE_DEFAULTS` is imported by
`state.py` from `constants.py` but is not defined in the provided
source files.  The spec only says voice registrations are "seeded from
engine defaults then overridden"; the contents are unspecified and no
claim below depends on them, so the default map is left empty. -/
def VOICE_DEFAULTS : List (String × ℤ) := []

/-- `WHITESPACE` from `constants.py`. -/
def WHITESPACE : List Char := [' ', '\n', '\r', '\t']

/-- `SPECIAL_CHARACTERS` from `constants.py`. -/
def SPECIAL_CHARACTERS : List Char := [',', '{', '}', '[', ']', '<', '>']

/-- `BREAK_CHARS` from `constants.py`. -/
def BREAK_CHARS : List Char := WHITESPACE ++ SPECIAL_CHARACTERS ++ ['/']

/-- Whether a character triggers a lexical break. -/
def isBreak (c : Char) : Bool := decide (c ∈ BREAK_CHARS)

/-- Membership in Python `string.digits`. -/
def isDigitCh (c : Char) : Bool :=
  decide (c ∈ ['0', '1', '2', '3', '4', '5', '6', '7', '8', '9'])

/-! ## AST nodes (`src/components/node.py`) -/

/-- Parser nodes: `CommandNode`, `PhonemeNode`, `VoiceNode`, `EofNode`
from `node.py`.  Positions are omitted (node `__eq__` ignores them). -/
inductive Node where
  | command (command : String) (parameters : List PyVal) (context : List Node)
  | phoneme (phoneme : String) (length : PyVal) (pitch : ℤ)
  | voice (name : String) (parameters : List (String × ℤ))
  | eof

/-- `PhonemeNode.__repr__`: name, then `<length,pitch>` where a zero
length or pitch is omitted (and the chevrons entirely when both are
zero), wrapped in square brackets. -/
def phonemeRepr (ph : String) (length : PyVal) (pitch : ℤ) : String :=
  let core :=
    if 0 < (pitch : ℚ) + length.toQ then
      ph ++ "<" ++ (if 0 < length.toQ then pyValRepr length else "")
         ++ (if 0 < pitch then "," ++ intRepr pitch else "") ++ ">"
    else ph
  "[" ++ core ++ "]"

mutual

/-- `Node.__repr__` for each node class in `node.py`. -/
def reprNode : Node → String
  | .command c ps ctx =>
      let base := "[:" ++ c ++ String.join (ps.map (fun p => " " ++ pyValRepr p)) ++ "]"
      if 0 < ctx.length then base ++ " \x7b" ++ reprNodes ctx ++ " \x7d" else base
  | .phoneme ph len pitch => phonemeRepr ph len pitch
  | .voice name ps =>
      "[:voice " ++ name ++ "] \x7b"
        ++ String.intercalate ", " (ps.map (fun p => p.1 ++ ": " ++ intRepr p.2))
        ++ "\x7d"
  | .eof => "<EOF>"

/-- Context rendering inside `CommandNode.__repr__`: a space before
each child node. -/
def reprNodes : List Node → String
  | [] => ""
  | n :: ns => " " ++ reprNode n ++ reprNodes ns

end

/-! ## Errors (`src/utils/exceptions.py` plus Python built-in errors) -/

/-- Errors raised by the embedded compiler.  The `kind`/`message`
fields mirror the `type_`/`details` arguments of the
`LoggingPositionalException` subclasses in `exceptions.py` (minus
source positions, which are not modelled).  `typeError` models a
Python `TypeError`, `zeroDivisionError` a Python `ZeroDivisionError`,
and `outOfFuel` marks recursion Python would never finish. -/
inductive PyErr where
  | lexerError (kind message : String)
  | parserError (kind message : String)
  | processorError (kind message : String)
  | stateError (kind message : String)
  | validationError (kind message : String)
  | readerError (message : String)
  | writerError (message : String)
  | typeError (message : String)
  | zeroDivisionError
  | outOfFuel
  deriving DecidableEq

/-! ## Association lists (Python `dict` with insertion order) -/

/-- Lookup in an insertion-ordered association list. -/
def alookup {α : Type} (k : String) : List (String × α) → Option α
  | [] => none
  | (k2, v) :: t => if k2 = k then some v else alookup k t

/-- Assignment `d[k] = v` on an insertion-ordered association list:
overwrite in place if present, else append. -/
def aset {α : Type} (k : String) (v : α) : List (String × α) → List (String × α)
  | [] => [(k, v)]
  | (k2, v2) :: t => if k2 = k then (k, v) :: t else (k2, v2) :: aset k v t

/-! ## Compilation state (`src/components/state.py`) -/

/-- The compiler `State`: tempo multiplier, user-defined objects, and
the include-directory search list (`[cwd] + includes`).  The
source/compiled/outfile path bookkeeping feeds only the out-of-scope
exporter and is not modelled. -/
structure PState where
  bpm_to_ms : PyVal
  phrases : List (String × List Node)
  sounds : List (String × List Node)
  voices : List (String × List (String × ℤ))
  includes : List String

/-- `State.__init__`: multiplier 1.0 (a float), empty definition maps,
include list seeded with the process working directory. -/
def initState (cwd : String) (includes : List String) : PState :=
  { bpm_to_ms := .float 1
    phrases := []
    sounds := []
    voices := []
    includes := cwd :: includes }

/-- `State.register`.  Phrases reject phoneme names and names already
registered as sounds; sounds reject phoneme names and names already
registered as phrases; voices reject the default voice names and merge
the supplied parameters over `VOICE_DEFAULTS`.  Note the source has no
same-namespace check: re-registering a phrase (resp. sound) name
silently overwrites it.  A non-`str` phrase/sound name would be used
as a raw dictionary key in Python; validation rules that out before
`register` is reached, and it is modelled as a `TypeError` here. -/
def register (s : PState) (node : Node) : Except PyErr PState :=
  match node with
  | .command cmd params ctx =>
      if cmd = "phrase" then
        match params with
        | .str name :: _ =>
            if name ∈ PHONEMES then
              throw (.stateError "RegistrationError"
                ("Cannot register phrase " ++ name ++ " - it is a phoneme"))
            else if (alookup name s.sounds).isSome then
              throw (.stateError "RegistrationError"
                ("Cannot register phrase " ++ name ++ " - it is already a registered sound"))
            else
              pure { s with phrases := aset name ctx s.phrases }
        | _ => throw (.typeError "phrase name is not a string")
      else if cmd = "sound" then
        match params with
        | .str name :: _ =>
            if name ∈ PHONEMES then
              throw (.stateError "RegistrationError"
                ("Cannot register sound " ++ name ++ " - it is a phoneme"))
            else if (alookup name s.phrases).isSome then
              throw (.stateError "RegistrationError"
                ("Cannot register sound " ++ name ++ " - it is already a registered phrase"))
            else
              pure { s with sounds := aset name ctx s.sounds }
        | _ => throw (.typeError "sound name is not a string")
      else if cmd = "voice" then
        -- A CommandNode whose command is "voice" cannot be produced by the
        -- parser; Python would fail reading the missing `.name` attribute.
        throw (.typeError "CommandNode has no attribute name")
      else
        throw (.stateError "RegistrationError" ("Cannot register command " ++ cmd))
  | .voice name ps =>
      if name ∈ VOICE_DEFAULT_NAMES then
        throw (.stateError "RegistrationError" ("Cannot overwrite default voice " ++ name))
      else
        pure { s with voices := aset name (ps.foldl (fun acc p => aset p.1 p.2 acc) VOICE_DEFAULTS) s.voices }
  | _ =>
      throw (.stateError "RegistrationError" "Cannot register user-defined type")

/-- `State.set_bpm`, called with `node.parameters[0]` (numeric after
validation; a string operand would be a Python `TypeError`).  `bpm ==
0` resets the multiplier to the integer 1, any other value sets the
float `60000 / bpm`. -/
def set_bpm (s : PState) (bpm : PyVal) : Except PyErr PState :=
  match bpm with
  | .int b =>
      if b = 0 then pure { s with bpm_to_ms := .int 1 }
      else pure { s with bpm_to_ms := .float (60000 / (b : ℚ)) }
  | .float q =>
      if q = 0 then pure { s with bpm_to_ms := .int 1 }
      else pure { s with bpm_to_ms := .float (60000 / q) }
  | .str _ => throw (.typeError "unsupported operand type for divide")

/-- Python `int(q)` (truncation toward zero). -/
def pyInt (q : ℚ) : ℤ := if 0 ≤ q then ⌊q⌋ else -⌊-q⌋

/-- `int(node.length * state.bpm_to_ms)`: tempo conversion of a
phoneme length.  An `int * int` product is already integral, so one
truncation covers both operand layouts. -/
def convertLength (length bpm : PyVal) : PyVal :=
  .int (pyInt (length.toQ * bpm.toQ))

/-! ## Lexer (`src/components/lexer.py`)

The `Reader` is modelled as the list of characters still to be read
(`reader.char` is the head).  `get_tokens` and its helpers consume that
list from the front exactly as the Python reader advances. -/

/-- Lexer tokens (`token.py`): token type and literal value fused into
one constructor each.  The EOF token carries no value. -/
inductive Token where
  | int (n : ℕ)
  | float (q : ℚ)
  | str (s : String)
  | comma
  | lbrace
  | rbrace
  | lbracket
  | rbracket
  | lchevron
  | rchevron
  | eof
  deriving DecidableEq

/-- `Token.__repr__` (used in parser error messages). -/
def tokenRepr : Token → String
  | .int n => "Token<INT," ++ natRepr n ++ ">"
  | .float q => "Token<FLOAT," ++ floatRepr q ++ ">"
  | .str s => "Token<STRING," ++ s ++ ">"
  | .comma => "Token<COMMA,>"
  | .lbrace => "Token<LBRACE,>"
  | .rbrace => "Token<RBRACE,>"
  | .lbracket => "Token<LBRACKET,>"
  | .rbracket => "Token<RBRACKET,>"
  | .lchevron => "Token<LCHEVRON,>"
  | .rchevron => "Token<RCHEVRON,>"
  | .eof => "Token<EOF,>"

/-- `TOKENTYPE_SPECIALCHAR_MAP` from `lexer.py`. -/
def specialToken (c : Char) : Option Token :=
  if c = ',' then some .comma
  else if c = '{' then some .lbrace
  else if c = '}' then some .rbrace
  else if c = '[' then some .lbracket
  else if c = ']' then some .rbracket
  else if c = '<' then some .lchevron
  else if c = '>' then some .rchevron
  else none

/-- The block-comment loop inside `Lexer.scan_comment`.  The input
list starts at the reader's current character (the `*` that opened the
comment); on each iteration the loop advances once unconditionally,
then — if it now sees `*` — advances again and accepts if that shows
`/`.  Returns the characters after the terminator, or `none` when the
input is exhausted first (the `while/else` branch in the source). -/
def blockLoop : List Char → Option (List Char)
  | [] => none
  | [_] => none
  | _ :: '*' :: '/' :: v => some v
  | _ :: '*' :: u => blockLoop u
  | _ :: c :: t => blockLoop (c :: t)

/-- Digit-string to value, as `int(number)` over decimal digits. -/
def natOfDigitChars (l : List Char) : ℕ :=
  l.foldl (fun a c => 10 * a + (c.toNat - 48)) 0

/-- `float(number)` for a digit string with a single `.` (exact
rational value of the decimal literal). -/
def floatOfChars (l : List Char) : ℚ :=
  let ip := l.takeWhile (fun c => c ≠ '.')
  let fr := (l.dropWhile (fun c => c ≠ '.')).drop 1
  (natOfDigitChars ip : ℚ) + (natOfDigitChars fr : ℚ) / (10 : ℚ) ^ fr.length

/-- Final conversion at the end of `Lexer.scan_number`. -/
def numberToken (num : List Char) (fp : Bool) : Token :=
  if fp then .float (floatOfChars num) else .int (natOfDigitChars num)

mutual

/-- `Lexer.read_remaining`: take characters up to the next break
character; if that break is `/`, re-invoke comment scanning and splice
a returned string token's text back on. -/
def readRemaining : ℕ → List Char → Except PyErr (String × List Char)
  | 0, _ => throw .outOfFuel
  | fuel + 1, l =>
    let s := l.takeWhile (fun c => !isBreak c)
    let r := l.dropWhile (fun c => !isBreak c)
    match r with
    | '/' :: _ => do
        let (tk, r2) ← scanComment fuel r
        match tk with
        | some (Token.str s2) => pure (String.mk s ++ s2, r2)
        | some _ => pure (String.mk s, r2)
        | none => pure (String.mk s, r2)
    | _ => pure (String.mk s, r)

/-- `Lexer.scan_comment`: the current character is the `/` that
triggered the call; it is consumed first.  `//` skips to end of line,
`/*` runs the block loop (an exhausted block loop is the source's
buggy raise, which passes a single concatenated string where
`LoggingPositionalException.__init__` expects two arguments — a Python
`TypeError`), anything else re-reads as a string starting with `/`. -/
def scanComment : ℕ → List Char → Except PyErr (Option Token × List Char)
  | 0, _ => throw .outOfFuel
  | fuel + 1, l =>
    match l with
    | [] => pure (some (.str "/"), [])
    | _ :: t =>
      match t with
      | '/' :: u => pure (none, u.dropWhile (fun c => c ≠ '\n'))
      | '*' :: u =>
          match blockLoop ('*' :: u) with
          | some rest => pure (none, rest)
          | none =>
              throw (.typeError
                "LoggingPositionalException.__init__ missing 1 required positional argument: details")
      | _ => do
          let (s, r) ← readRemaining fuel t
          pure (some (.str ("/" ++ s)), r)

/-- The character loop of `Lexer.scan_number`, carrying the collected
literal text and the float flag.  Error branches call
`read_remaining` to build the reported literal, exactly as the source
does (so a comment mis-scan inside that call can pre-empt the
`ValueError`). -/
def scanNumberLoop : ℕ → List Char → List Char → Bool → Except PyErr (Token × List Char)
  | 0, _, _, _ => throw .outOfFuel
  | fuel + 1, l, num, fp =>
    match l with
    | [] => pure (numberToken num fp, [])
    | c :: t =>
      if isBreak c then pure (numberToken num fp, c :: t)
      else if isDigitCh c then scanNumberLoop fuel t (num ++ [c]) fp
      else if c = '.' then
        if fp then do
          let (s, _) ← readRemaining fuel (c :: t)
          throw (.lexerError "ValueError"
            ("Invalid FLOAT " ++ String.mk num ++ s ++ " - can only have single ."))
        else scanNumberLoop fuel t (num ++ [c]) true
      else do
        let (s, _) ← readRemaining fuel (c :: t)
        throw (.lexerError "ValueError"
          ("Invalid " ++ (if fp then "FLOAT" else "INT") ++ " " ++ String.mk num ++ s
            ++ " - is not a legal number character"))

end

/-- `Lexer.scan_number`. -/
def scanNumber (fuel : ℕ) (l : List Char) : Except PyErr (Token × List Char) :=
  scanNumberLoop fuel l [] false

/-- `Lexer.scan_string`. -/
def scanString (fuel : ℕ) (l : List Char) : Except PyErr (Token × List Char) := do
  let (s, r) ← readRemaining fuel l
  pure (.str s, r)

/-- The token loop of `Lexer.get_tokens`: skip whitespace, scan
comments at `/`, emit special-character tokens, scan numbers at a
digit, otherwise scan a string; append the EOF token at end of
input. -/
def lexLoop : ℕ → List Char → Except PyErr (List Token)
  | 0, _ => throw .outOfFuel
  | fuel + 1, l =>
    match l with
    | [] => pure [.eof]
    | c :: t =>
      if c ∈ WHITESPACE then lexLoop fuel t
      else if c = '/' then do
        let (tk, l2) ← scanComment fuel (c :: t)
        match tk with
        | none => lexLoop fuel l2
        | some tok => do
            let ts ← lexLoop fuel l2
            pure (tok :: ts)
      else
        match specialToken c with
        | some tok => do
            let ts ← lexLoop fuel t
            pure (tok :: ts)
        | none =>
          if isDigitCh c then do
            let (tok, l2) ← scanNumber fuel (c :: t)
            let ts ← lexLoop fuel l2
            pure (tok :: ts)
          else do
            let (tok, l2) ← scanString fuel (c :: t)
            let ts ← lexLoop fuel l2
            pure (tok :: ts)

/-- `Lexer.get_tokens` on a character stream.  The fuel bound
`2 * length + 2` dominates the actual recursion depth: every fuel
decrement is matched by at least one consumed character along any call
chain, with at most one extra frame per chain link. -/
def getTokens (l : List Char) : Except PyErr (List Token) :=
  lexLoop (2 * l.length + 2) l

/-! ## Parser (`src/components/parser.py`)

The parser state (token list plus index) is modelled as the list of
tokens still to be consumed.  Python's parser never walks past the
final EOF token (`advance` sticks there), so an empty remaining list
only arises for inputs Python would loop forever on; that is modelled
as `outOfFuel`. -/

/-- Phoneme special-casing at the end of `Parser.parse_phoneme`:
no-length symbols get duration 0, no-pitch phonemes get pitch 0. -/
def mkPhoneme (name : String) (len : PyVal) (pitch : ℤ) : Node :=
  let len := if name ∈ PHONEMES_NOLENGTH then PyVal.int 0 else len
  let pitch := if name ∈ PHONEMES_NOPITCH then 0 else pitch
  .phoneme name len pitch

/-- `Parser.parse_phoneme`.  Invoked on a COMMA or STRING token
(a comma token contributes the phoneme name ","); then an optional
`< length? ,? pitch? >` suffix. -/
def parsePhoneme : List Token → Except PyErr (Node × List Token)
  | [] => throw .outOfFuel
  | tk :: rest =>
    let name := match tk with
      | .str s => s
      | .comma => ","
      | _ => ""
    match rest with
    | .lchevron :: r1 =>
        let lr : PyVal × List Token := match r1 with
          | .int n :: rr => (.int (n : ℤ), rr)
          | .float q :: rr => (.float q, rr)
          | _ => (.int 0, r1)
        let pr : ℤ × List Token := match lr.2 with
          | .comma :: rr =>
              match rr with
              | .int n :: rrr => ((n : ℤ), rrr)
              | _ => (0, rr)
          | _ => (0, lr.2)
        match pr.2 with
        | .rchevron :: r4 => pure (mkPhoneme name lr.1 pr.1, r4)
        | tk2 :: _ =>
            throw (.parserError "SyntaxError"
              ("Missing > when parsing phoneme - got " ++ tokenRepr tk2))
        | [] => throw .outOfFuel
    | _ => pure (mkPhoneme name (.int 0) 0, rest)

/-- The parameter loop inside `Parser.parse_command`: read INT, FLOAT
or STRING parameters up to the closing bracket. -/
def parseParams : List Token → Except PyErr (List PyVal × List Token)
  | [] => throw .outOfFuel
  | .rbracket :: rest => pure ([], rest)
  | .eof :: _ =>
      throw (.parserError "SyntaxError" "Unexpected EOF while parsing command")
  | .int n :: rest => do
      let (ps, r) ← parseParams rest
      pure (.int (n : ℤ) :: ps, r)
  | .float q :: rest => do
      let (ps, r) ← parseParams rest
      pure (.float q :: ps, r)
  | .str s :: rest => do
      let (ps, r) ← parseParams rest
      pure (.str s :: ps, r)
  | tk :: _ =>
      throw (.parserError "SyntaxError"
        ("Command parameter can only be STRING, INT, or FLOAT - got " ++ tokenRepr tk))

/-- The voice parameter loop inside `Parser.parse_voice`: `NAME INT`
pairs with an optional comma separator, up to the closing brace. -/
def parseVoiceParams : List Token → Except PyErr (List (String × ℤ) × List Token)
  | [] => throw .outOfFuel
  | .rbrace :: rest => pure ([], rest)
  | .str p :: .int v :: .comma :: rest => do
      let (ps, r) ← parseVoiceParams rest
      pure ((p, (v : ℤ)) :: ps, r)
  | .str p :: .int v :: rest => do
      let (ps, r) ← parseVoiceParams rest
      pure ((p, (v : ℤ)) :: ps, r)
  | .str _ :: tk :: _ =>
      throw (.parserError "SyntaxError"
        ("Voice parameter value must be INT - got " ++ tokenRepr tk))
  | .str _ :: [] => throw .outOfFuel
  | tk :: _ =>
      throw (.parserError "SyntaxError"
        ("Voice parameter must be STRING - got " ++ tokenRepr tk))

/-- `Parser.parse_voice` (the `[ :voice` prefix has been consumed):
voice name, closing bracket, then an optional parameter block.  The
parameter pairs populate a dict in order (duplicates overwrite). -/
def parseVoice : List Token → Except PyErr (Node × List Token)
  | .str name :: .rbracket :: .lbrace :: rest => do
      let (ps, r) ← parseVoiceParams rest
      pure (.voice name (ps.foldl (fun acc p => aset p.1 p.2 acc) []), r)
  | .str name :: .rbracket :: rest => pure (.voice name [], rest)
  | .str _ :: tk :: _ =>
      throw (.parserError "SyntaxError"
        ("Voice command takes only one parameter - got " ++ tokenRepr tk))
  | .str _ :: [] => throw .outOfFuel
  | tk :: _ =>
      throw (.parserError "SyntaxError" ("Voice name must be STRING - got " ++ tokenRepr tk))
  | [] => throw .outOfFuel

mutual

/-- `Parser.parse_command`: the current token is the opening bracket.
Command name must be a STRING starting with `:` (a bare `:` is an
error; `:voice` diverts to the voice production), then parameters to
`]`, then an optional brace-delimited context block. -/
def parseCommand : ℕ → List Token → Except PyErr (Node × List Token)
  | 0, _ => throw .outOfFuel
  | fuel + 1, toks =>
    match toks with
    | [] => throw .outOfFuel
    | _ :: rest =>
      match rest with
      | .str v :: rest2 =>
          match v.toList with
          | [] => throw (.typeError "string index out of range")
          | c0 :: _ =>
            if c0 ≠ ':' then
              throw (.parserError "SyntaxError"
                ("Command " ++ v ++ " must start with : - try :" ++ v))
            else if v = ":" then
              throw (.parserError "SyntaxError" "No command provided - only got :")
            else if v = ":voice" then
              parseVoice rest2
            else do
              let (params, rest3) ← parseParams rest2
              match rest3 with
              | .lbrace :: rest4 => do
                  let (ctx, rest5) ← parseCtxLoop fuel rest4
                  pure (.command (String.mk (v.toList.drop 1)) params ctx, rest5)
              | _ => pure (.command (String.mk (v.toList.drop 1)) params [], rest3)
      | tk :: _ =>
          throw (.parserError "SyntaxError"
            ("Expected STRING for command name - got " ++ tokenRepr tk))
      | [] => throw .outOfFuel

/-- The context loop inside `Parser.parse_command`: commands and
phonemes up to the closing brace; any other token (including EOF) is
an "Illegal ... in command context" error. -/
def parseCtxLoop : ℕ → List Token → Except PyErr (List Node × List Token)
  | 0, _ => throw .outOfFuel
  | fuel + 1, toks =>
    match toks with
    | [] => throw .outOfFuel
    | .rbrace :: rest => pure ([], rest)
    | .lbracket :: _ => do
        let (n, toks2) ← parseCommand fuel toks
        let (ns, toks3) ← parseCtxLoop fuel toks2
        pure (n :: ns, toks3)
    | .comma :: _ => do
        let (n, toks2) ← parsePhoneme toks
        let (ns, toks3) ← parseCtxLoop fuel toks2
        pure (n :: ns, toks3)
    | .str _ :: _ => do
        let (n, toks2) ← parsePhoneme toks
        let (ns, toks3) ← parseCtxLoop fuel toks2
        pure (n :: ns, toks3)
    | tk :: _ =>
        throw (.parserError "TypeError" ("Illegal " ++ tokenRepr tk ++ " in command context"))

end

/-- The node loop of `Parser.get_nodes`: commands at `[`, phonemes at
COMMA/STRING, an `EofNode` at the EOF token, anything else an error. -/
def parseLoop : ℕ → List Token → Except PyErr (List Node)
  | 0, _ => throw .outOfFuel
  | fuel + 1, toks =>
    match toks with
    | [] => throw .outOfFuel
    | .eof :: _ => pure [.eof]
    | .lbracket :: _ => do
        let (n, toks2) ← parseCommand fuel toks
        let ns ← parseLoop fuel toks2
        pure (n :: ns)
    | .comma :: _ => do
        let (n, toks2) ← parsePhoneme toks
        let ns ← parseLoop fuel toks2
        pure (n :: ns)
    | .str _ :: _ => do
        let (n, toks2) ← parsePhoneme toks
        let ns ← parseLoop fuel toks2
        pure (n :: ns)
    | tk :: _ => throw (.parserError "TypeError" ("Illegal " ++ tokenRepr tk ++ " found"))

/-- `Parser.get_nodes`. -/
def parseTokens (toks : List Token) : Except PyErr (List Node) :=
  parseLoop (2 * toks.length + 2) toks

/-! ## Validation (`src/utils/validation.py`) -/

/-- Python type tags used by `_validate_parameter_types`. -/
inductive PyTy where
  | int
  | float
  | str
  deriving DecidableEq

/-- `isinstance(value, ty)`. -/
def PyVal.hasTy : PyVal → PyTy → Bool
  | .int _, .int => true
  | .float _, .float => true
  | .str _, .str => true
  | _, _ => false

/-- `_validate_context_length`. -/
def validateContextLength (cmd : String) (params : List PyVal) (ctx : List Node) :
    Except PyErr Unit :=
  if ctx.length = 0 then
    throw (.validationError "SyntaxError"
      (cmd ++ " " ++ pyValRepr (params.headD (.str "")) ++ " missing context"))
  else pure ()

/-- Whether a node is a `PhonemeNode`. -/
def nodeIsPhoneme : Node → Bool
  | .phoneme .. => true
  | _ => false

/-- Context type restriction of `_validate_context_type`: the callers
pass either the root `Node` class (accepting every node) or
`PhonemeNode`. -/
inductive CtxTy where
  | anyNode
  | phonemeOnly

/-- `_validate_context_type`. -/
def validateContextType (cmd : String) (ctx : List Node) (ty : CtxTy) : Except PyErr Unit :=
  match ty with
  | .anyNode => pure ()
  | .phonemeOnly =>
      if ctx.all nodeIsPhoneme then pure ()
      else
        throw (.validationError "CommandContextTypeException"
          ("Command " ++ cmd ++ " takes only PhonemeNode types"))

/-- `_validate_parameter_count`. -/
def validateParameterCount (cmd : String) (params : List PyVal) (count : ℕ) :
    Except PyErr Unit :=
  if params.length = count then pure ()
  else
    throw (.validationError "CommandParameterCountException"
      ("Command " ++ cmd ++ " takes only " ++ natRepr count ++ " parameters - got "
        ++ natRepr params.length))

/-- `_validate_parameter_types` (the source asserts the two lengths
match; callers validate the count first). -/
def validateParameterTypes (cmd : String) (params : List PyVal) (tys : List PyTy) :
    Except PyErr Unit :=
  if params.length ≠ tys.length then throw (.typeError "assertion failed")
  else if (params.zip tys).all (fun pt => pt.1.hasTy pt.2) then pure ()
  else
    throw (.validationError "CommandParameterTypeException"
      ("Command " ++ cmd ++ " parameter must have the declared type"))

/-- `_validate_parameter_keywords` (a non-string parameter is simply
not a member of the keyword list). -/
def validateParameterKeywords (cmd : String) (p : PyVal) (kws : List String) :
    Except PyErr Unit :=
  match p with
  | .str s =>
      if s ∈ kws then pure ()
      else
        throw (.validationError "CommandParameterKeywordException"
          ("Command " ++ cmd ++ " parameter " ++ s ++ " not a valid keyword"))
  | _ =>
      throw (.validationError "CommandParameterKeywordException"
        ("Command " ++ cmd ++ " parameter not a valid keyword"))

/-- `[a-zA-Z]`. -/
def isAlphaCh (c : Char) : Bool :=
  (97 ≤ c.toNat && c.toNat ≤ 122) || (65 ≤ c.toNat && c.toNat ≤ 90)

/-- `[a-zA-Z0-9_]`. -/
def isVarTailCh (c : Char) : Bool := isAlphaCh c || isDigitCh c || c = '_'

/-- `re.match(RE_VARIABLE, s)` for
`RE_VARIABLE = "^(([a-zA-Z])|([_a-zA-Z][a-zA-Z0-9_]+))$"`. -/
def isVariable (s : String) : Bool :=
  match s.toList with
  | [] => false
  | [c] => isAlphaCh c
  | c :: rest => (isAlphaCh c || c = '_') && rest.all isVarTailCh

/-- `_validate_parameter_is_variable` (a non-string parameter would be
a `TypeError` inside `re.match`). -/
def validateParameterIsVariable (cmd : String) (p : PyVal) : Except PyErr Unit :=
  match p with
  | .str s =>
      if isVariable s then pure ()
      else
        throw (.validationError "CommandParameterVariableException"
          ("Command " ++ cmd ++ " parameter " ++ s ++ " does not match the variable regex"))
  | _ => throw (.typeError "expected string or bytes-like object")

/-- `_validate_parameter_value_range` (parameters reaching this check
are numeric; comparing a string would be a Python `TypeError`). -/
def validateParameterValueRange (cmd : String) (p : PyVal) (minv maxv : ℤ) :
    Except PyErr Unit :=
  match p with
  | .int v =>
      if v < minv ∨ maxv < v then
        throw (.validationError "CommandParameterValueException"
          ("Command " ++ cmd ++ " parameter value " ++ intRepr v ++ " must be between "
            ++ intRepr minv ++ " and " ++ intRepr maxv))
      else pure ()
  | .float q =>
      if q < (minv : ℚ) ∨ (maxv : ℚ) < q then
        throw (.validationError "CommandParameterValueException"
          ("Command " ++ cmd ++ " parameter value must be between "
            ++ intRepr minv ++ " and " ++ intRepr maxv))
      else pure ()
  | .str _ => throw (.typeError "comparison not supported between str and int")

/-- Phoneme-class string built by `_validate_sound_command`:
`c` per consonant, `v` per vowel, an error otherwise.  The context is
all phonemes by the time this runs (`_validate_context_type`). -/
def soundClass (cmd : String) (sname : String) : List Node → Except PyErr (List Char)
  | [] => pure []
  | n :: rest =>
      match n with
      | .phoneme p _ _ => do
          let c ←
            if p ∈ PHONEMES_CONSONANTS then pure 'c'
            else if p ∈ PHONEMES_VOWELS then pure 'v'
            else
              throw (.validationError "SoundPhonemeTypeException"
                ("Sound " ++ sname ++ " can only accept vowel or consonant phonemes"))
          let cs ← soundClass cmd sname rest
          pure (c :: cs)
      | _ => throw (.typeError (cmd ++ " context node has no attribute phoneme"))

/-- `re.match(RE_SOUND, phonemes)` for `RE_SOUND = "^c*v+c*$"`. -/
def soundShapeOk (cls : List Char) : Bool :=
  let r1 := cls.dropWhile (fun c => c == 'c')
  let vs := r1.takeWhile (fun c => c == 'v')
  let r2 := r1.dropWhile (fun c => c == 'v')
  (1 ≤ vs.length) && r2.all (fun c => c == 'c')

/-- `_validate_voice_command`. -/
def validateVoiceNode (name : String) (ps : List (String × ℤ)) : Except PyErr Unit := do
  validateParameterIsVariable "voice" (.str name)
  ps.forM (fun p =>
    match alookup p.1 VOICE_MINMAX with
    | none =>
        throw (.validationError "VoiceParameterNameException"
          ("Voice " ++ name ++ " contains unrecognized parameter " ++ p.1))
    | some mm =>
        if p.2 < mm.1 ∨ mm.2 < p.2 then
          throw (.validationError "VoiceParameterValueException"
            ("Voice " ++ name ++ " parameter " ++ p.1 ++ " value " ++ intRepr p.2
              ++ " is not within a valid range"))
        else pure ())

/-- `validate` with the `_VALIDATION_MAP` dispatch inlined: one branch
per command validator of `validation.py`, the `_autovalidate` names,
and the unrecognized-command error.  A `CommandNode` whose command is
"voice" cannot be produced by the parser; Python would fail reading
its missing `.name` attribute. -/
def validate (node : Node) : Except PyErr Unit :=
  match node with
  | .voice name ps => validateVoiceNode name ps
  | .command cmd params ctx =>
      if cmd = "comma" ∨ cmd = "cp" then do
        validateParameterCount cmd params 1
        validateParameterTypes cmd params [.int]
      else if cmd = "dv" then do
        validateParameterCount cmd params 2
        validateParameterTypes cmd params [.str, .int]
        validateParameterKeywords cmd (params.headD (.str "")) VOICE_PARAMETERS
        match params with
        | .str p0 :: p1 :: _ =>
            match alookup p0 VOICE_MINMAX with
            | some mm => validateParameterValueRange cmd p1 mm.1 mm.2
            | none => throw (.typeError "KeyError")
        | _ => throw (.typeError "KeyError")
      else if cmd = "error" then do
        validateParameterCount cmd params 1
        validateParameterTypes cmd params [.str]
        validateParameterKeywords cmd (params.headD (.str "")) ["ignore", "speak", "tone"]
      else if cmd = "mode" then do
        validateParameterCount cmd params 2
        validateParameterTypes cmd params [.str, .str]
        validateParameterKeywords cmd (params.headD (.str ""))
          ["math", "europe", "spell", "name", "citation", "latin", "table"]
        validateParameterKeywords cmd ((params.drop 1).headD (.str "")) ["on", "off", "set"]
      else if cmd = "name" then do
        validateParameterCount cmd params 1
        validateParameterTypes cmd params [.str]
        validateParameterIsVariable cmd (params.headD (.str ""))
      else if cmd ∈ ["nb", "nd", "nf", "nh", "nk", "np", "nr", "nu", "nw"] then
        pure ()
      else if cmd = "period" ∨ cmd = "pp" then do
        validateParameterCount cmd params 1
        validateParameterTypes cmd params [.int]
      else if cmd = "phoneme" then do
        validateParameterCount cmd params 2
        validateParameterTypes cmd params [.str, .str]
        validateParameterKeywords cmd (params.headD (.str "")) ["arpabet"]
        validateParameterKeywords cmd ((params.drop 1).headD (.str "")) ["on", "off"]
      else if cmd = "pitch" then do
        validateParameterCount cmd params 1
        validateParameterTypes cmd params [.int]
      else if cmd = "play" then do
        validateParameterCount cmd params 1
        validateParameterTypes cmd params [.str]
      else if cmd = "pronounce" then do
        validateParameterCount cmd params 1
        validateParameterTypes cmd params [.str]
        validateParameterKeywords cmd (params.headD (.str ""))
          ["alternate", "primary", "name", "noun", "adjective", "verb"]
      else if cmd = "punct" then do
        validateParameterCount cmd params 1
        validateParameterTypes cmd params [.str]
        validateParameterKeywords cmd (params.headD (.str "")) ["none", "some", "all", "pass"]
      else if cmd = "rate" then do
        validateParameterCount cmd params 1
        validateParameterTypes cmd params [.int]
        validateParameterValueRange cmd (params.headD (.str "")) 75 600
      else if cmd = "say" then do
        validateParameterCount cmd params 1
        validateParameterTypes cmd params [.str]
        validateParameterKeywords cmd (params.headD (.str ""))
          ["clause", "word", "letter", "filtered", "line"]
      else if cmd = "skip" then do
        validateParameterCount cmd params 1
        validateParameterTypes cmd params [.str]
        validateParameterKeywords cmd (params.headD (.str ""))
          ["punct", "rule", "all", "off", "cpg", "none"]
      else if cmd = "tone" then do
        validateParameterCount cmd params 2
        validateParameterTypes cmd params [.int, .int]
      else if cmd = "volume" then
        if params.length = 2 then do
          validateParameterTypes cmd params [.str, .int]
          validateParameterKeywords cmd (params.headD (.str ""))
            ["up", "lup", "rup", "down", "ldown", "rdown", "set", "lset", "rset"]
          validateParameterValueRange cmd ((params.drop 1).headD (.str "")) 0 100
        else if params.length = 3 then do
          validateParameterTypes cmd params [.str, .int, .int]
          validateParameterKeywords cmd (params.headD (.str "")) ["sset"]
          validateParameterValueRange cmd ((params.drop 1).headD (.str "")) 0 100
          validateParameterValueRange cmd ((params.drop 2).headD (.str "")) 0 100
        else
          validateParameterCount cmd params 2
      else if cmd = "bpm" then do
        validateParameterCount cmd params 1
        validateParameterTypes cmd params [.int]
        validateParameterValueRange cmd (params.headD (.str "")) 0 60000
      else if cmd = "import" then do
        validateParameterCount cmd params 1
        validateParameterTypes cmd params [.str]
      else if cmd = "loop" then do
        validateParameterCount cmd params 1
        validateParameterTypes cmd params [.int]
        validateContextType cmd ctx .anyNode
      else if cmd = "phrase" then do
        validateParameterCount cmd params 1
        validateParameterTypes cmd params [.str]
        validateParameterIsVariable cmd (params.headD (.str ""))
        validateContextLength cmd params ctx
        validateContextType cmd ctx .anyNode
      else if cmd = "sound" then do
        validateParameterCount cmd params 1
        validateParameterTypes cmd params [.str]
        validateParameterIsVariable cmd (params.headD (.str ""))
        validateContextLength cmd params ctx
        validateContextType cmd ctx .phonemeOnly
        let sname := pyValRepr (params.headD (.str ""))
        let cls ← soundClass cmd sname ctx
        if soundShapeOk cls then pure ()
        else
          throw (.validationError "SyntaxError"
            ("Sound " ++ sname ++ " does not follow consonant-vowel-consonant pattern"))
      else if cmd = "voice" then
        throw (.typeError "CommandNode has no attribute name")
      else
        throw (.validationError "NameError" ("Unrecognized command " ++ cmd))
  | _ => throw (.typeError "node has no attribute command")

/-! ## Processor (`src/components/processor.py`)

The writer is an append-only sink: each function returns the text it
would have written, concatenated in write order.  The filesystem seen
by `[:import]`/`[:play]` resolution is an abstract map from paths to
file contents (`os.path.abspath` canonicalization is not modelled —
it never changes which candidate wins — and `os.path.join` is modelled
as `/`-joining). -/

/-- Abstract filesystem: path → file contents. -/
structure Env where
  fs : String → Option String

/-- `os.path.isfile`. -/
def Env.isFile (env : Env) (p : String) : Bool := (env.fs p).isSome

/-- `os.path.join`. -/
def joinPath (d f : String) : String := d ++ "/" ++ f

/-- The file-resolution logic shared by `__process_import_command` and
`__process_play_command`: if the raw path is a file, use it; otherwise
scan every include directory, keeping the candidate of each hit — the
loop has no break, so the **last** matching include directory wins. -/
def resolveFile (env : Env) (includes : List String) (filename : String) : Option String :=
  if env.isFile filename then some filename
  else
    includes.foldl
      (fun acc d => if env.isFile (joinPath d filename) then some (joinPath d filename) else acc)
      none

/-- Python `str.strip()` whitespace (as applied by `Reader.__init__`). -/
def isPyWS (c : Char) : Bool := decide (c ∈ [' ', '\n', '\r', '\t', '\x0b', '\x0c'])

/-- `Reader.__init__` on in-memory text: strip, reject empty input. -/
def readSource (src : String) : Except PyErr (List Char) :=
  let l := ((src.toList.dropWhile isPyWS).reverse.dropWhile isPyWS).reverse
  if l.isEmpty then throw (.readerError "Failed to initialize reader - no source provided")
  else pure l

/-- View a registered sound's nodes as (phoneme, length, pitch)
triples.  `__process_sound` reads `.phoneme`/.length/.pitch off every
element; validation guarantees they are all `PhonemeNode`s. -/
def toPhonemeTriples : List Node → Option (List (String × PyVal × ℤ))
  | [] => some []
  | .phoneme p l pi :: rest => (toPhonemeTriples rest).map (fun ts => (p, l, pi) :: ts)
  | _ => none

/-- Consonant test used by the peeling loops of `__process_sound`. -/
def triCons (t : String × PyVal × ℤ) : Bool := decide (t.1 ∈ PHONEMES_CONSONANTS)

/-- `Processor.__process_sound`: peel leading and trailing consonants
(each emitted as `[x<15>]`), divide the remaining requested length
evenly (floor) over the vowel run, overwrite each vowel's length and
pitch **in the stored definition** (Python mutates the list the state
dictionary holds) and emit the result.  The division happens before
the minimum-length check, so an all-consonant sound would be a
`ZeroDivisionError`; both are unreachable for validated sounds. -/
def processSound (s : PState) (ph : String) (length : PyVal) (pitch : ℤ) :
    Except PyErr (String × PState) :=
  match alookup ph s.sounds with
  | none => throw (.typeError "KeyError")
  | some sound =>
    match toPhonemeTriples sound with
    | none => throw (.typeError "sound context node has no attribute phoneme")
    | some phs =>
      let vowelStart := (phs.takeWhile triCons).length
      let vowelEnd := phs.length - (phs.reverse.takeWhile triCons).length
      let vcount : ℤ := (vowelEnd : ℤ) - (vowelStart : ℤ)
      let ccount : ℤ := (phs.length : ℤ) - vcount
      let headStr := String.join ((phs.takeWhile triCons).map (fun t => "[" ++ t.1 ++ "<15>]"))
      let tailStr :=
        String.join ((phs.reverse.takeWhile triCons).reverse.map (fun t => "[" ++ t.1 ++ "<15>]"))
      if vcount = 0 then throw .zeroDivisionError
      else
        let vlength : ℤ := ⌊(length.toQ - 15 * (ccount : ℚ)) / (vcount : ℚ)⌋
        if length.toQ < 15 * (ccount : ℚ) then
          throw (.processorError "RuntimeError"
            ("Sound " ++ ph ++ " must have minimum length " ++ intRepr (15 * ccount)
              ++ "ms - got " ++ pyValRepr length))
        else
          let vowelsOut :=
            ((phs.drop vowelStart).take (vowelEnd - vowelStart)).map
              (fun t => (t.1, PyVal.int vlength, pitch))
          let vstr := String.join (vowelsOut.map (fun t => phonemeRepr t.1 t.2.1 t.2.2))
          let newTriples :=
            if vowelEnd ≤ vowelStart then phs
            else phs.take vowelStart ++ vowelsOut ++ phs.drop vowelEnd
          let newSound := newTriples.map (fun t => Node.phoneme t.1 t.2.1 t.2.2)
          pure (headStr ++ vstr ++ tailStr, { s with sounds := aset ph newSound s.sounds })

/-- `Processor.__process_name_command`.  A default voice name passes
through; a registered voice expands to its `[:dv ...]` directives;
anything else is a NameError. -/
def processName (s : PState) (node : Node) (params : List PyVal) :
    Except PyErr (String × PState) :=
  match params with
  | [] => throw (.typeError "list index out of range")
  | p :: _ =>
    match p with
    | .str name =>
        if name ∈ VOICE_DEFAULT_NAMES then pure (reprNode node, s)
        else
          match alookup name s.voices with
          | none => throw (.processorError "NameError" ("Name " ++ name ++ " is not defined"))
          | some ps =>
              pure (String.join (ps.map (fun q => "[:dv " ++ q.1 ++ " " ++ intRepr q.2 ++ "]")), s)
    | _ => throw (.processorError "NameError" ("Name " ++ pyValRepr p ++ " is not defined"))

/-- `Processor.__process_play_command`: resolve the file (same search
as import), rewrite the first parameter to the resolved path, and
bypass the rewritten node. -/
def processPlay (env : Env) (s : PState) (cmd : String) (params : List PyVal)
    (ctx : List Node) : Except PyErr (String × PState) :=
  match params with
  | [] => throw (.typeError "list index out of range")
  | p :: rest =>
    match p with
    | .str filename =>
        match resolveFile env s.includes filename with
        | none =>
            throw (.processorError "FileNotFoundError"
              ("Could not import file " ++ filename ++ " - file not found"))
        | some fp => pure (reprNode (.command cmd (.str fp :: rest) ctx), s)
    | _ => throw (.typeError "isfile argument must be str")

/-- Python `build * n` for a string and an int. -/
def strRepeat (b : String) (n : ℤ) : String := String.join (List.replicate n.toNat b)

mutual

/-- The node loop of `Processor.process`: stop at the EOF node (any
following nodes are never reached); validate then dispatch commands
and voices; convert a phoneme's length by the live tempo multiplier
(this overwrites the node's length, but each top-level node is
processed exactly once) and resolve it.  Python would loop forever on
a node list with no EOF node (`advance` sticks at the last node), so
that case is `outOfFuel`. -/
def processNodes (env : Env) : ℕ → PState → List Node → Except PyErr (String × PState)
  | 0, _, _ => throw .outOfFuel
  | fuel + 1, s, nodes =>
    match nodes with
    | [] => throw .outOfFuel
    | .eof :: _ => pure ("", s)
    | .phoneme ph len pitch :: rest => do
        let (buf, s2) ← processPhoneme env fuel s ph (convertLength len s.bpm_to_ms) pitch
        let (bufs, s3) ← processNodes env fuel s2 rest
        pure (buf ++ bufs, s3)
    | n :: rest => do
        validate n
        let (buf, s2) ← processCommand env fuel s n
        let (bufs, s3) ← processNodes env fuel s2 rest
        pure (buf ++ bufs, s3)

/-- `Processor.__process_command`: the handler dispatch table.
Ignored commands emit nothing; `name`, `play`, `bpm`, `import`,
`loop` have specialized handlers; `phrase`/`sound`/`voice` register;
anything else bypasses (its own re-encoding). -/
def processCommand (env : Env) : ℕ → PState → Node → Except PyErr (String × PState)
  | 0, _, _ => throw .outOfFuel
  | fuel + 1, s, node =>
    match node with
    | .command cmd params ctx =>
        if cmd ∈ ["mode", "phoneme", "pitch", "pronounce"] then pure ("", s)
        else if cmd = "name" then processName s node params
        else if cmd = "play" then processPlay env s cmd params ctx
        else if cmd = "bpm" then
          match params with
          | [] => throw (.typeError "list index out of range")
          | p :: _ => do
              let s2 ← set_bpm s p
              pure ("", s2)
        else if cmd = "import" then processImport env fuel s params
        else if cmd = "loop" then processLoop env fuel s params ctx
        else if cmd ∈ ["phrase", "sound", "voice"] then do
          let s2 ← register s node
          pure ("", s2)
        else pure (reprNode node, s)
    | .voice _ _ => do
        let s2 ← register s node
        pure ("", s2)
    | _ => throw (.typeError "node has no attribute command")

/-- `Processor.__process_context`: commands dispatch directly (note:
without validation); each phoneme's length is temporarily rewritten by
the tempo conversion and restored afterwards — modelled by using the
converted value locally and never writing it back. -/
def processContext (env : Env) : ℕ → PState → List Node → Except PyErr (String × PState)
  | 0, _, _ => throw .outOfFuel
  | fuel + 1, s, ns =>
    match ns with
    | [] => pure ("", s)
    | n :: rest => do
        let (b, s2) ←
          match n with
          | .phoneme ph len pitch =>
              processPhoneme env fuel s ph (convertLength len s.bpm_to_ms) pitch
          | .eof => throw (.typeError "EofNode has no attribute length")
          | _ => processCommand env fuel s n
        let (bs, s3) ← processContext env fuel s2 rest
        pure (b ++ bs, s3)

/-- `Processor.__process_phoneme`: built-in phonemes emit their own
re-encoding; phrases replay their stored context; sounds expand via
`__process_sound`; anything else is a NameError. -/
def processPhoneme (env : Env) : ℕ → PState → String → PyVal → ℤ →
    Except PyErr (String × PState)
  | 0, _, _, _, _ => throw .outOfFuel
  | fuel + 1, s, ph, len, pitch =>
    if ph ∈ PHONEMES then pure (phonemeRepr ph len pitch, s)
    else
      match alookup ph s.phrases with
      | some phrase => processContext env fuel s phrase
      | none =>
        match alookup ph s.sounds with
        | some _ => processSound s ph len pitch
        | none =>
            throw (.processorError "NameError"
              ("Unrecognized phoneme, sound, or phrase " ++ ph))

/-- `Processor.__process_loop_command`: process the context **once**,
then replicate the resulting text `parameters[0]` times. -/
def processLoop (env : Env) : ℕ → PState → List PyVal → List Node →
    Except PyErr (String × PState)
  | 0, _, _, _ => throw .outOfFuel
  | fuel + 1, s, params, ctx => do
      let (build, s2) ← processContext env fuel s ctx
      match params with
      | .int n :: _ => pure (strRepeat build n, s2)
      | .float _ :: _ => throw (.typeError "cannot multiply sequence by non-int")
      | .str _ :: _ => throw (.typeError "cannot multiply sequence by non-int")
      | [] => throw (.typeError "list index out of range")

/-- `Processor.__process_import_command`: resolve the path (or fail),
then lex, parse and process the imported file with the **same** state
and writer. -/
def processImport (env : Env) : ℕ → PState → List PyVal → Except PyErr (String × PState)
  | 0, _, _ => throw .outOfFuel
  | fuel + 1, s, params =>
    match params with
    | [] => throw (.typeError "list index out of range")
    | p :: _ =>
      match p with
      | .str filename =>
          match resolveFile env s.includes filename with
          | none =>
              throw (.processorError "FileNotFoundError"
                ("Could not import file " ++ filename ++ " - file not found"))
          | some fp =>
              match env.fs fp with
              | none => throw (.readerError "import target vanished")
              | some contents => do
                  let src ← readSource contents
                  let toks ← getTokens src
                  let nodes ← parseTokens toks
                  processNodes env fuel s nodes
      | _ => throw (.typeError "isfile argument must be str")

end

/-- The full pipeline `compile.compile` up to (and excluding) the
out-of-scope `.wav` export: read, lex, parse and process a source
text with a fresh state. -/
def compileSource (env : Env) (cwd : String) (includes : List String) (fuel : ℕ)
    (src : String) : Except PyErr (String × PState) := do
  let l ← readSource src
  let toks ← getTokens l
  let nodes ← parseTokens toks
  processNodes env fuel (initState cwd includes) nodes

/-- An environment with no files (the concrete examples below import
nothing). -/
def emptyEnv : Env := ⟨fun _ => none⟩

/-! ## Definitions used by the claim statements -/

/-- The resolution rule exactly as claim C3 states it: resolve against
the current-file directory first, then each include directory in list
order, the first existing match winning. -/
def resolveFileSpec (env : Env) (currentFileDir : String) (includes : List String)
    (filename : String) : Option String :=
  ((currentFileDir :: includes).map (fun d => joinPath d filename)).find? env.isFile

/-- A filesystem on which the claimed and actual resolution rules
disagree: the file exists in both include directories. -/
def c3Env : Env := ⟨fun p => if p = "a/f" ∨ p = "b/f" then some "" else none⟩

/-- A state that already has a phrase named `x`. -/
def c1State : PState :=
  { bpm_to_ms := .float 1
    phrases := [("x", [.phoneme "aa" (.int 0) 0])]
    sounds := []
    voices := []
    includes := [] }

/-- (phoneme, length, pitch) triple, the fields `__process_sound`
reads off each stored `PhonemeNode`. -/
def triToNode (t : String × PyVal × ℤ) : Node := .phoneme t.1 t.2.1 t.2.2

/-- The computed per-vowel duration of a sound expansion:
floor((L - 15c) / v). -/
def vowelLength (L : ℤ) (c v : ℕ) : ℤ := ⌊((L : ℚ) - 15 * ((c : ℤ) : ℚ)) / ((v : ℤ) : ℚ)⌋

/-- The stored sound definition after one expansion: vowels rewritten
to the computed duration and the invocation pitch. -/
def mutatedSound (cs vs ds : List (String × PyVal × ℤ)) (vl pitch : ℤ) : List Node :=
  (cs ++ vs.map (fun t => (t.1, PyVal.int vl, pitch)) ++ ds).map triToNode

/-- A concrete state holding the registered sound `ba` from the spec
example: one consonant `b` followed by one vowel `aa`. -/
def c9State : PState :=
  { initState "." [] with
      sounds := [("ba", [Node.phoneme "b" (.int 0) 0, Node.phoneme "aa" (.int 0) 0])] }


/-- Comment-only sources as claim C7 describes them (modelled from the
spec): whitespace, line comments, and block comments closed by the
first following terminator, whose interior therefore has no embedded
terminator. -/
inductive ClaimCommentOnly : List Char → Prop
  | nil : ClaimCommentOnly []
  | ws (c : Char) (rest : List Char) : c ∈ WHITESPACE → ClaimCommentOnly rest →
      ClaimCommentOnly (c :: rest)
  | line (body rest : List Char) : (∀ c ∈ body, c ≠ '\n') → ClaimCommentOnly rest →
      ClaimCommentOnly ('/' :: '/' :: (body ++ '\n' :: rest))
  | lineEnd (body : List Char) : (∀ c ∈ body, c ≠ '\n') →
      ClaimCommentOnly ('/' :: '/' :: body)
  | block (inner rest : List Char) : ¬ ['*', '/'] <:+: inner → ClaimCommentOnly rest →
      ClaimCommentOnly ('/' :: '*' :: (inner ++ '*' :: '/' :: rest))

/-- Comment-only sources on which the block scanner is reliable: block
comment interiors contain no asterisk at all. -/
inductive CommentOnly : List Char → Prop
  | nil : CommentOnly []
  | ws (c : Char) (rest : List Char) : c ∈ WHITESPACE → CommentOnly rest →
      CommentOnly (c :: rest)
  | line (body rest : List Char) : (∀ c ∈ body, c ≠ '\n') → CommentOnly rest →
      CommentOnly ('/' :: '/' :: (body ++ '\n' :: rest))
  | lineEnd (body : List Char) : (∀ c ∈ body, c ≠ '\n') →
      CommentOnly ('/' :: '/' :: body)
  | block (inner rest : List Char) : (∀ c ∈ inner, c ≠ '*') → CommentOnly rest →
      CommentOnly ('/' :: '*' :: (inner ++ '*' :: '/' :: rest))


/-- Parameters whose textual form re-lexes to the same value: a
nonnegative integer, or a nonempty string of non-break characters not
starting with a digit. -/
def ParamOk : PyVal → Prop :=
  fun p => (∃ n : ℕ, p = .int (n : ℤ)) ∨
    (∃ c cs, p = .str (String.mk (c :: cs)) ∧ isDigitCh c = false ∧
      ∀ x ∈ c :: cs, isBreak x = false)

/-- The token a round-tripping parameter re-lexes to. -/
def paramTok : PyVal → Token
  | .int n => .int n.toNat
  | .float q => .float q
  | .str s => .str s

/-- A residual input at which a word or number scan stops: empty, or
headed by a break character other than the comment trigger. -/
def RestOk (rest : List Char) : Prop :=
  rest = [] ∨ ∃ c t, rest = c :: t ∧ isBreak c = true ∧ c ≠ '/'

/-- The character stream of a parameter list rendering: a space before
each parameter. -/
def paramsChars (params : List PyVal) : List Char :=
  (params.map (fun p => ' ' :: (pyValRepr p).toList)).flatten

/-- The character stream of a context-free command rendering. -/
def cmdChars (name : String) (params : List PyVal) : List Char :=
  '[' :: ':' :: (name.toList ++ (paramsChars params ++ [']']))


set_option maxRecDepth 1000000

/-! ## Helper lemmas -/

/-- `throw` on `Except PyErr` is `Except.error`. -/
@[simp] theorem throw_eq {α : Type} (e : PyErr) : (throw e : Except PyErr α) = .error e := rfl

/-- `pure` on `Except PyErr` is `Except.ok`. -/
@[simp] theorem pure_eq {α : Type} (a : α) : (pure a : Except PyErr α) = .ok a := rfl

/-- Bind on an `ok` value. -/
@[simp] theorem bind_ok {α β : Type} (a : α) (f : α → Except PyErr β) :
    (Except.ok a >>= f : Except PyErr β) = f a := rfl

/-- Bind on an error. -/
@[simp] theorem bind_error {α β : Type} (e : PyErr) (f : α → Except PyErr β) :
    (Except.error e >>= f : Except PyErr β) = .error e := rfl

/-- Map on an `ok` value. -/
@[simp] theorem map_ok {α β : Type} (f : α → β) (a : α) :
    (Except.ok a : Except PyErr α).map f = .ok (f a) := rfl

/-- Map on an error. -/
@[simp] theorem map_error {α β : Type} (f : α → β) (e : PyErr) :
    (Except.error e : Except PyErr α).map f = .error e := rfl

/-- A fold that overwrites its accumulator on every hit keeps the
**last** hit (the no-`break` include-directory loop of the import/play
resolution). -/
theorem foldl_overwrite_eq_getLast {α β : Type} (q : α → Bool) (g : α → β) :
    ∀ (l : List α) (init : Option β),
      l.foldl (fun acc d => if q d then some (g d) else acc) init
        = ((l.filter q).getLast?.map g).or init := by
  intro l
  induction l with
  | nil => intro init; rfl
  | cons a l ih =>
      intro init
      by_cases hq : q a = true
      · simp only [List.foldl_cons, List.filter_cons, hq, if_pos hq, ih]
        cases h : (l.filter q).getLast? <;> simp [h, List.getLast?_cons]
      · simp only [List.foldl_cons, List.filter_cons, hq, ih]
        simp [hq]

/-! ## Claim C8 -/

/-- Claim C8 (code bug): on an unterminated block comment the source
attempts `raise LexerException(pos, "OpenBlockCommentException" "Found
block comment that was not closed.")` — a missing comma merges the two
strings into a single argument, so `LoggingPositionalException.__init__`
is called with one argument too few and Python raises a `TypeError`
instead of a `LexerException`; the comment's start position is not
reported.  The embedded lexer on the source `/*` yields exactly that
`TypeError`. -/
theorem C8_unterminated_block_comment_raises_type_error :
    getTokens "/*".toList =
      .error (.typeError
        "LoggingPositionalException.__init__ missing 1 required positional argument: details") :=
  rfl

/-! ## Claim C3 -/

/-- Claim C3 (counterexample): with include directories `["a", "b"]`
both containing `f` (and a current-file directory `c` that does not),
the claimed rule picks the first match `a/f`, but the code's include
loop has no `break`, so the last match `b/f` wins. -/
theorem C3_counterexample_last_match_wins :
    resolveFileSpec c3Env "c" ["a", "b"] "f" = some "a/f" ∧
    resolveFile c3Env ["a", "b"] "f" = some "b/f" ∧
    some "b/f" ≠ some "a/f" :=
  ⟨rfl, rfl, by decide⟩

/-- Claim C3 (amended): the import/play path is first tried as given
(relative to the process working directory, not the current file's
directory); otherwise every include directory is scanned and the
**last** directory containing the file wins; if no candidate exists,
`[:import]` raises a fatal `FileNotFoundError`. -/
theorem C3_import_resolution (env : Env) (includes : List String) (filename : String)
    (s : PState) (fuel : ℕ) :
    (resolveFile env includes filename =
      if env.isFile filename then some filename
      else ((includes.filter (fun d => env.isFile (joinPath d filename))).getLast?).map
             (fun d => joinPath d filename)) ∧
    (resolveFile env s.includes filename = none →
      processImport env (fuel + 1) s [.str filename] =
        .error (.processorError "FileNotFoundError"
          ("Could not import file " ++ filename ++ " - file not found"))) := by
  constructor
  · unfold resolveFile
    by_cases h : env.isFile filename
    · simp [h]
    · rw [if_neg h, if_neg h, foldl_overwrite_eq_getLast]
      cases ((includes.filter (fun d => env.isFile (joinPath d filename))).getLast?) <;> simp
  · intro hnone
    rw [processImport, hnone]
    rfl

/-- Witness for `C3_import_resolution`: in the empty filesystem the
resolution fails and the import raises the fatal error. -/
theorem C3_import_resolution_witness :
    processImport emptyEnv 3 (initState "." []) [.str "f"] =
      .error (.processorError "FileNotFoundError"
        ("Could not import file " ++ "f" ++ " - file not found")) :=
  (C3_import_resolution emptyEnv [] "f" (initState "." []) 2).2 rfl

/-! ## Claim C1 -/

/-- Claim C1 (counterexample): registering the phrase name `x` a
second time (as a phrase) does **not** raise — `State.register` checks
the phoneme list and the *other* namespace only, so the second
registration silently overwrites the stored context. -/
theorem C1_counterexample_duplicate_phrase_overwrites :
    register c1State (.command "phrase" [.str "x"] [.phoneme "aa" (.int 5) 0]) =
      .ok { c1State with phrases := [("x", [.phoneme "aa" (.int 5) 0])] } :=
  rfl

/-- Claim C1 (amended): registering a phrase (resp. sound) raises a
Registration error exactly when the name is a built-in phoneme or is
already registered in the *other* namespace; otherwise it succeeds and
stores (overwriting any same-namespace registration, which the source
never checks). -/
theorem C1_registration_collisions (s : PState) (name : String) (ctx : List Node) :
    ((∃ e, register s (.command "phrase" [.str name] ctx) = .error e) ↔
      name ∈ PHONEMES ∨ (alookup name s.sounds).isSome = true) ∧
    ((∃ e, register s (.command "sound" [.str name] ctx) = .error e) ↔
      name ∈ PHONEMES ∨ (alookup name s.phrases).isSome = true) ∧
    (name ∉ PHONEMES → (alookup name s.sounds).isSome = false →
      register s (.command "phrase" [.str name] ctx) =
        .ok { s with phrases := aset name ctx s.phrases }) ∧
    (name ∉ PHONEMES → (alookup name s.phrases).isSome = false →
      register s (.command "sound" [.str name] ctx) =
        .ok { s with sounds := aset name ctx s.sounds }) := by
  refine ⟨?_, ?_, ?_, ?_⟩
  · constructor
    · intro ⟨e, he⟩
      by_contra hc
      push_neg at hc
      obtain ⟨h1, h2⟩ := hc
      simp only [ne_eq, Bool.not_eq_true] at h2
      simp [register, h1, h2] at he
    · intro h
      by_cases hph : name ∈ PHONEMES
      · exact ⟨.stateError "RegistrationError"
          ("Cannot register phrase " ++ name ++ " - it is a phoneme"), by simp [register, hph]⟩
      · rcases h with h | h
        · exact absurd h hph
        · exact ⟨.stateError "RegistrationError"
            ("Cannot register phrase " ++ name ++ " - it is already a registered sound"),
            by simp [register, hph, h]⟩
  · constructor
    · intro ⟨e, he⟩
      by_contra hc
      push_neg at hc
      obtain ⟨h1, h2⟩ := hc
      simp only [ne_eq, Bool.not_eq_true] at h2
      simp [register, h1, h2] at he
    · intro h
      by_cases hph : name ∈ PHONEMES
      · exact ⟨.stateError "RegistrationError"
          ("Cannot register sound " ++ name ++ " - it is a phoneme"), by simp [register, hph]⟩
      · rcases h with h | h
        · exact absurd h hph
        · exact ⟨.stateError "RegistrationError"
            ("Cannot register sound " ++ name ++ " - it is already a registered phrase"),
            by simp [register, hph, h]⟩
  · intro h1 h2
    simp [register, h1, h2]
  · intro h1 h2
    simp [register, h1, h2]

/-- Witness for `C1_registration_collisions`: in `c1State` (which has
a phrase `x`), registering a *sound* named `x` raises. -/
theorem C1_registration_collisions_witness :
    ∃ e, register c1State (.command "sound" [.str "x"] []) = .error e :=
  ((C1_registration_collisions c1State "x" []).2.1).2 (Or.inr rfl)

/-! ## Claim C10 -/

/-- Claim C10: a loop command processes its context against the
compilation state exactly once, whatever the repeat count — the
resulting state is the single-pass context state (so registrations,
bpm changes and imports inside the context take effect once), and only
the emitted text is replicated. -/
theorem C10_loop_context_processed_once (env : Env) (fuel : ℕ) (s : PState)
    (x : List Node) (N M : ℤ) :
    ((processCommand env (fuel + 2) s (.command "loop" [.int N] x)).map Prod.snd
      = (processContext env fuel s x).map Prod.snd) ∧
    ((processCommand env (fuel + 2) s (.command "loop" [.int N] x)).map Prod.snd
      = (processCommand env (fuel + 2) s (.command "loop" [.int M] x)).map Prod.snd) ∧
    ((processCommand env (fuel + 2) s (.command "loop" [.int N] x)).map Prod.fst
      = (processContext env fuel s x).map (fun p => strRepeat p.1 N)) := by
  have hdisp : ∀ (K : ℤ),
      processCommand env (fuel + 2) s (.command "loop" [.int K] x)
        = processLoop env (fuel + 1) s [.int K] x := by
    intro K
    rw [processCommand]
    simp
  rw [hdisp N, hdisp M, processLoop, processLoop]
  cases h : processContext env fuel s x with
  | ok p => simp [h]
  | error e => simp [h]

/-! ## Claim C6 -/

/-- Claim C6: for a context `x` whose single-pass expansion succeeds
with text `b`, processing `[:loop N] {x}` emits exactly `N`
concatenated copies of `b` (in particular the empty string for
`N = 0`). -/
theorem C6_loop_replicates_expansion (env : Env) (fuel : ℕ) (s s2 : PState)
    (x : List Node) (b : String) (N : ℕ)
    (h : processContext env fuel s x = .ok (b, s2)) :
    processCommand env (fuel + 2) s (.command "loop" [.int (N : ℤ)] x) =
      .ok (String.join (List.replicate N b), s2) := by
  rw [processCommand]
  simp only [List.mem_cons, List.mem_singleton, String.reduceEq, or_self, if_false]
  rw [processLoop]
  simp [h, strRepeat]

/-- Witness for `C6_loop_replicates_expansion` at `N = 2` on the
context `{aa}` (and the `N = 0` case produces the empty string). -/
theorem C6_loop_replicates_expansion_witness :
    processCommand emptyEnv 5 (initState "." [])
        (.command "loop" [.int (2 : ℕ)] [.phoneme "aa" (.int 0) 0]) =
      .ok ("[aa][aa]", initState "." []) ∧
    processCommand emptyEnv 5 (initState "." [])
        (.command "loop" [.int (0 : ℕ)] [.phoneme "aa" (.int 0) 0]) =
      .ok ("", initState "." []) := by
  constructor
  · exact (C6_loop_replicates_expansion emptyEnv 3 (initState "." []) (initState "." [])
      [.phoneme "aa" (.int 0) 0] "[aa]" 2 (by with_unfolding_all rfl)).trans
      (by with_unfolding_all rfl)
  · exact (C6_loop_replicates_expansion emptyEnv 3 (initState "." []) (initState "." [])
      [.phoneme "aa" (.int 0) 0] "[aa]" 0 (by with_unfolding_all rfl)).trans
      (by with_unfolding_all rfl)

/-! ## Claim C5 -/

/-- Claim C5: `set_bpm 0` resets the tempo multiplier to 1, any other
bpm `b` sets it to `60000 / b`; a built-in phoneme's emitted duration
is the floor of its parsed duration times the multiplier; and the two
spec examples compile to `[_<1000>]` and `[_<500>]`. -/
theorem C5_bpm_semantics (s : PState) (b : ℤ) (env : Env) (fuel : ℕ)
    (ph : String) (len : PyVal) (pitch : ℤ)
    (hb : b ≠ 0) (hph : ph ∈ PHONEMES) (hlen : 0 ≤ len.toQ)
    (hbpm : 0 ≤ s.bpm_to_ms.toQ) :
    set_bpm s (.int 0) = .ok { s with bpm_to_ms := .int 1 } ∧
    set_bpm s (.int b) = .ok { s with bpm_to_ms := .float (60000 / (b : ℚ)) } ∧
    processNodes env (fuel + 2) s [.phoneme ph len pitch, .eof] =
      .ok (phonemeRepr ph (.int ⌊len.toQ * s.bpm_to_ms.toQ⌋) pitch, s) ∧
    (compileSource emptyEnv "." [] 20 "[:bpm 60] _<1>").map Prod.fst = .ok "[_<1000>]" ∧
    (compileSource emptyEnv "." [] 20 "[:bpm 120] _<1>").map Prod.fst = .ok "[_<500>]" := by
  have hconv : convertLength len s.bpm_to_ms = .int ⌊len.toQ * s.bpm_to_ms.toQ⌋ := by
    rw [convertLength, pyInt, if_pos (mul_nonneg hlen hbpm)]
  refine ⟨?_, ?_, ?_, by with_unfolding_all rfl, by with_unfolding_all rfl⟩
  · rw [set_bpm]
    simp
  · rw [set_bpm]
    simp [hb]
  · rw [processNodes.eq_def]
    dsimp only
    rw [hconv, processPhoneme]
    simp only [hph, if_pos, pure_eq, bind_ok]
    rw [processNodes.eq_def]
    dsimp only
    simp

/-- Witness for `C5_bpm_semantics`: the duration conversion applied to
the silence phoneme `_<1>` at the default multiplier. -/
theorem C5_bpm_semantics_witness :
    processNodes emptyEnv 5 (initState "." []) [.phoneme "_" (.int 1) 0, .eof] =
      .ok ("[_<1>]", initState "." []) :=
  ((C5_bpm_semantics (initState "." []) 60 emptyEnv 3 "_" (.int 1) 0
      (by decide) (by decide) (by norm_num [PyVal.toQ])
      (by norm_num [initState, PyVal.toQ])).2.2.1).trans (by with_unfolding_all rfl)


/-! ## Sound expansion (`Processor.__process_sound`) -/

/-- `toPhonemeTriples` inverts `triToNode` on lists. -/
theorem toPhonemeTriples_map (l : List (String × PyVal × ℤ)) :
    toPhonemeTriples (l.map triToNode) = some l := by
  induction l with
  | nil => rfl
  | cons t l ih => simp [toPhonemeTriples, triToNode, ih]

/-- `takeWhile` runs through a prefix on which the predicate holds. -/
theorem takeWhile_all_append {α : Type} (p : α → Bool) (l1 l2 : List α)
    (h : ∀ a ∈ l1, p a = true) :
    (l1 ++ l2).takeWhile p = l1 ++ l2.takeWhile p := by
  induction l1 with
  | nil => simp
  | cons a l ih =>
      simp only [List.cons_append, List.takeWhile_cons, h a (by simp)]
      simp only [if_true]
      rw [ih (fun x hx => h x (by simp [hx]))]

/-- `takeWhile` stops at a leading element refuting the predicate. -/
theorem takeWhile_eq_nil_of_head {α : Type} (p : α → Bool) (l rest : List α)
    (hne : l ≠ []) (h : ∀ a ∈ l, p a = false) :
    (l ++ rest).takeWhile p = [] := by
  cases l with
  | nil => exact absurd rfl hne
  | cons a l => simp [List.takeWhile_cons, h a (by simp)]

/-- No vowel name is a consonant name. -/
theorem vowels_not_consonants :
    ∀ x ∈ PHONEMES_VOWELS, x ∉ PHONEMES_CONSONANTS := by decide

/-- The fixed consonant emission `[x<15>]` is the phoneme re-encoding
at duration 15 and pitch 0. -/
theorem phonemeRepr_15 (p : String) : phonemeRepr p (.int 15) 0 = "[" ++ p ++ "<15>]" := by
  have h15 : pyValRepr (.int 15) = "15" := by with_unfolding_all rfl
  rw [phonemeRepr]
  norm_num [PyVal.toQ, h15]
  simp [String.append_assoc]

/-- Full characterization of `__process_sound` on a pre-validated
consonant-vowel-consonant sound at an integer duration above the
minimum: the emitted text, and the permanent rewrite of the stored
definition. -/
theorem processSound_spec (s : PState) (name : String)
    (cs vs ds : List (String × PyVal × ℤ)) (L pitch : ℤ)
    (hlook : alookup name s.sounds = some ((cs ++ vs ++ ds).map triToNode))
    (hcs : ∀ t ∈ cs, t.1 ∈ PHONEMES_CONSONANTS)
    (hds : ∀ t ∈ ds, t.1 ∈ PHONEMES_CONSONANTS)
    (hvs : ∀ t ∈ vs, t.1 ∈ PHONEMES_VOWELS)
    (hvne : vs ≠ [])
    (hL : 15 * ((cs.length : ℤ) + (ds.length : ℤ)) ≤ L) :
    processSound s name (.int L) pitch =
      .ok
        (String.join (cs.map (fun t => phonemeRepr t.1 (.int 15) 0))
          ++ String.join (vs.map (fun t =>
               phonemeRepr t.1 (.int (vowelLength L (cs.length + ds.length) vs.length)) pitch))
          ++ String.join (ds.map (fun t => phonemeRepr t.1 (.int 15) 0)),
        { s with sounds := aset name (mutatedSound cs vs ds (vowelLength L (cs.length + ds.length) vs.length) pitch) s.sounds }) := by
  obtain ⟨v0, vs', rfl⟩ : ∃ v0 vs', vs = v0 :: vs' := by
    cases vs with
    | nil => exact absurd rfl hvne
    | cons a l => exact ⟨a, l, rfl⟩
  have hcsB : ∀ t ∈ cs, triCons t = true := fun t ht => by
    simp [triCons, hcs t ht]
  have hdsB : ∀ t ∈ ds.reverse, triCons t = true := fun t ht => by
    simp [triCons, hds t (List.mem_reverse.mp ht)]
  have hvsB : ∀ t ∈ (v0 :: vs'), triCons t = false := fun t ht => by
    simp [triCons, vowels_not_consonants t.1 (hvs t ht)]
  have htake : ((cs ++ (v0 :: vs') ++ ds).takeWhile triCons) = cs := by
    rw [List.append_assoc, takeWhile_all_append _ _ _ hcsB,
        takeWhile_eq_nil_of_head _ _ _ (by simp) hvsB, List.append_nil]
  have htakeRev : ((cs ++ (v0 :: vs') ++ ds).reverse.takeWhile triCons) = ds.reverse := by
    have hr : (cs ++ (v0 :: vs') ++ ds).reverse
        = ds.reverse ++ ((v0 :: vs').reverse ++ cs.reverse) := by
      simp [List.reverse_append, List.append_assoc]
    rw [hr, takeWhile_all_append _ _ _ hdsB,
        takeWhile_eq_nil_of_head _ _ _ (by simp)
          (fun t ht => hvsB t (List.mem_reverse.mp ht)),
        List.append_nil]
  rw [processSound, hlook]
  dsimp only
  rw [toPhonemeTriples_map]
  dsimp only
  rw [htake, htakeRev]
  dsimp only [PyVal.toQ]
  have e1 : ((cs ++ v0 :: vs' ++ ds).length - ds.reverse.length : ℕ)
      = cs.length + (vs'.length + 1) := by
    simp [List.length_append]
    omega
  rw [e1]
  have e2 : ((cs.length + (vs'.length + 1) : ℕ) : ℤ) - (cs.length : ℤ)
      = ((vs'.length + 1 : ℕ) : ℤ) := by push_cast; ring
  rw [e2]
  have e4 : ((cs ++ v0 :: vs' ++ ds).length : ℤ) - ((vs'.length + 1 : ℕ) : ℤ)
      = ((cs.length + ds.length : ℕ) : ℤ) := by
    simp [List.length_append]
    ring
  rw [e4]
  rw [if_neg (show ¬(((vs'.length + 1 : ℕ) : ℤ) = 0) by exact_mod_cast Nat.succ_ne_zero vs'.length)]
  rw [if_neg (not_lt.mpr (show (15 : ℚ) * (((cs.length + ds.length : ℕ) : ℤ) : ℚ) ≤ (L : ℤ) by exact_mod_cast hL))]
  have e5 : cs.length + (vs'.length + 1) - cs.length = vs'.length + 1 := by omega
  rw [e5]
  rw [List.append_assoc, List.cons_append]
  rw [List.drop_left cs (v0 :: (vs' ++ ds))]
  rw [List.take_succ_cons, List.take_left]
  rw [if_neg (show ¬(cs.length + (vs'.length + 1) ≤ cs.length) by omega)]
  rw [List.take_left cs (v0 :: (vs' ++ ds))]
  have e9 : List.drop (cs.length + (vs'.length + 1)) (cs ++ (v0 :: (vs' ++ ds))) = ds := by
    rw [← List.cons_append, ← List.append_assoc]
    exact List.drop_left' (by simp)
  rw [e9, List.reverse_reverse]
  simp only [pure_eq, List.map_map, mutatedSound, vowelLength, List.length_cons, phonemeRepr_15]
  rfl

/-- `alookup` after `aset` at the same key retrieves the new value. -/
theorem alookup_aset {α : Type} (k : String) (v : α) (l : List (String × α)) :
    alookup k (aset k v l) = some v := by
  induction l with
  | nil => simp [aset, alookup]
  | cons p t ih =>
      obtain ⟨k2, v2⟩ := p
      by_cases h : k2 = k
      · simp [aset, alookup, h]
      · simp [aset, alookup, h, ih]

/-- Replaying a context of built-in phonemes emits text and leaves the
state untouched: the length rewrite of `__process_context` is temporary
(the original value is restored after the phoneme is emitted). -/
theorem processContext_builtin_frame (env : Env) (l : List Node)
    (h : ∀ n ∈ l, ∃ ph len pitch, n = Node.phoneme ph len pitch ∧ ph ∈ PHONEMES) :
    ∀ fuel s, 2 * l.length + 1 ≤ fuel →
      ∃ b, processContext env fuel s l = .ok (b, s) := by
  induction l with
  | nil =>
      intro fuel s hf
      obtain ⟨f, rfl⟩ : ∃ f, fuel = f + 1 := ⟨fuel - 1, by omega⟩
      exact ⟨"", by rw [processContext]; rfl⟩
  | cons n rest ih =>
      intro fuel s hf
      obtain ⟨f, rfl⟩ : ∃ f, fuel = f + 1 + 1 := ⟨fuel - 2, by simp at hf; omega⟩
      obtain ⟨ph, len, pitch, rfl, hph⟩ := h n (by simp)
      obtain ⟨b, hb⟩ := ih (fun x hx => h x (by simp [hx])) (f + 1) s
        (by simp at hf ⊢; omega)
      refine ⟨phonemeRepr ph (convertLength len s.bpm_to_ms) pitch ++ b, ?_⟩
      rw [processContext]
      dsimp only
      rw [processPhoneme]
      rw [if_pos hph]
      simp only [pure_eq, bind_ok]
      rw [hb]
      simp only [bind_ok, pure_eq]

/-! ## Claim C2 -/

/-- Claim C2: a registered consonant-vowel-consonant sound with c
consonants and v vowels, invoked at integer duration L at least 15
times c, emits every consonant at fixed duration 15 and pitch 0, and
every vowel at duration floor((L - 15 c) / v) with the invocation
pitch; in particular the spec example source registering sound ba as
b-aa and invoking ba at duration 30 compiles to `[b<15>][aa<15>]`. -/
theorem C2_sound_expansion (s : PState) (name : String)
    (cs vs ds : List (String × PyVal × ℤ)) (L pitch : ℤ)
    (hlook : alookup name s.sounds = some ((cs ++ vs ++ ds).map triToNode))
    (hcs : ∀ t ∈ cs, t.1 ∈ PHONEMES_CONSONANTS)
    (hds : ∀ t ∈ ds, t.1 ∈ PHONEMES_CONSONANTS)
    (hvs : ∀ t ∈ vs, t.1 ∈ PHONEMES_VOWELS)
    (hvne : vs ≠ [])
    (hL : 15 * ((cs.length : ℤ) + (ds.length : ℤ)) ≤ L) :
    processSound s name (.int L) pitch =
      .ok
        (String.join (cs.map (fun t => phonemeRepr t.1 (.int 15) 0))
          ++ String.join (vs.map (fun t =>
               phonemeRepr t.1 (.int (vowelLength L (cs.length + ds.length) vs.length)) pitch))
          ++ String.join (ds.map (fun t => phonemeRepr t.1 (.int 15) 0)),
        { s with sounds := aset name (mutatedSound cs vs ds (vowelLength L (cs.length + ds.length) vs.length) pitch) s.sounds })
    ∧ (compileSource emptyEnv "." [] 20 "[:sound ba] \x7bb aa\x7d ba<30>").map Prod.fst
        = .ok "[b<15>][aa<15>]" :=
  ⟨processSound_spec s name cs vs ds L pitch hlook hcs hds hvs hvne hL,
   by with_unfolding_all rfl⟩

/-- Witness for C2 at the spec example: state `c9State`, sound `ba`,
consonant run `b`, vowel run `aa`, duration 30, pitch 0. -/
theorem C2_sound_expansion_witness :
    processSound c9State "ba" (.int 30) 0 =
      .ok
        (String.join ([("b", PyVal.int 0, (0 : ℤ))].map (fun t => phonemeRepr t.1 (.int 15) 0))
          ++ String.join ([("aa", PyVal.int 0, (0 : ℤ))].map (fun t =>
               phonemeRepr t.1 (.int (vowelLength 30 ([("b", PyVal.int 0, (0 : ℤ))].length + ([] : List (String × PyVal × ℤ)).length) [("aa", PyVal.int 0, (0 : ℤ))].length)) 0))
          ++ String.join (([] : List (String × PyVal × ℤ)).map (fun t => phonemeRepr t.1 (.int 15) 0)),
        { c9State with sounds := aset "ba" (mutatedSound [("b", PyVal.int 0, (0 : ℤ))] [("aa", PyVal.int 0, (0 : ℤ))] [] (vowelLength 30 ([("b", PyVal.int 0, (0 : ℤ))].length + ([] : List (String × PyVal × ℤ)).length) [("aa", PyVal.int 0, (0 : ℤ))].length) 0) c9State.sounds })
    ∧ (compileSource emptyEnv "." [] 20 "[:sound ba] \x7bb aa\x7d ba<30>").map Prod.fst
        = .ok "[b<15>][aa<15>]" :=
  C2_sound_expansion c9State "ba" [("b", PyVal.int 0, (0 : ℤ))] [("aa", PyVal.int 0, (0 : ℤ))] [] 30 0
    (by with_unfolding_all rfl) (by decide) (by decide) (by decide)
    (List.cons_ne_nil _ _) (by decide)

/-! ## Claim C9 -/

/-- Claim C9 (counterexample): after the source registers the sound ba
(as consonant b and vowel aa, both with duration 0) and replays it once
at duration 30 and pitch 5, the stored definition of ba has its vowel
entry permanently rewritten to duration 15 and pitch 5 - it does not
keep its original un-converted duration. -/
theorem C9_counterexample_sound_replay_mutates :
    (compileSource emptyEnv "." [] 20 "[:sound ba] \x7bb aa\x7d ba<30,5>").map
        (fun r => (alookup "ba" (Prod.snd r).sounds).map (List.map reprNode))
      = .ok (some ["[b]", "[aa<15,5>]"])
    ∧ (compileSource emptyEnv "." [] 20 "[:sound ba] \x7bb aa\x7d").map
        (fun r => (alookup "ba" (Prod.snd r).sounds).map (List.map reprNode))
      = .ok (some ["[b]", "[aa]"])
    ∧ ("[aa<15,5>]" : String) ≠ "[aa]" :=
  ⟨by with_unfolding_all rfl, by with_unfolding_all rfl, by decide⟩

/-- Claim C9 (amended): replaying a registered phrase made of built-in
phonemes leaves the whole compiler state - in particular every stored
definition - unchanged (the tempo rewrite of each duration is
temporary); but expanding a registered sound permanently overwrites
the stored vowel entries with the computed duration and the
invocation pitch. -/
theorem C9_replay_state :
    (∀ (env : Env) (l : List Node),
      (∀ n ∈ l, ∃ ph len pitch, n = Node.phoneme ph len pitch ∧ ph ∈ PHONEMES) →
      ∀ fuel s, 2 * l.length + 1 ≤ fuel →
        ∃ b, processContext env fuel s l = .ok (b, s))
    ∧ (∀ (s : PState) (name : String) (cs vs ds : List (String × PyVal × ℤ)) (L pitch : ℤ),
        alookup name s.sounds = some ((cs ++ vs ++ ds).map triToNode) →
        (∀ t ∈ cs, t.1 ∈ PHONEMES_CONSONANTS) →
        (∀ t ∈ ds, t.1 ∈ PHONEMES_CONSONANTS) →
        (∀ t ∈ vs, t.1 ∈ PHONEMES_VOWELS) →
        vs ≠ [] →
        15 * ((cs.length : ℤ) + (ds.length : ℤ)) ≤ L →
        (processSound s name (.int L) pitch).map (fun r => alookup name (Prod.snd r).sounds)
          = .ok (some (mutatedSound cs vs ds (vowelLength L (cs.length + ds.length) vs.length) pitch))) := by
  constructor
  · exact processContext_builtin_frame
  · intro s name cs vs ds L pitch h1 h2 h3 h4 h5 h6
    rw [processSound_spec s name cs vs ds L pitch h1 h2 h3 h4 h5 h6]
    simp only [map_ok]
    rw [alookup_aset]

/-- Witness for C9: the phrase part at a one-phoneme context over the
initial state, and the sound part at the registered ba example. -/
theorem C9_replay_state_witness :
    (∃ b, processContext emptyEnv 3 (initState "." []) [Node.phoneme "aa" (.int 0) 0]
        = .ok (b, initState "." []))
    ∧ (processSound c9State "ba" (.int 30) 5).map (fun r => alookup "ba" (Prod.snd r).sounds)
        = .ok (some (mutatedSound [("b", PyVal.int 0, (0 : ℤ))] [("aa", PyVal.int 0, (0 : ℤ))] []
            (vowelLength 30 ([("b", PyVal.int 0, (0 : ℤ))].length + ([] : List (String × PyVal × ℤ)).length) [("aa", PyVal.int 0, (0 : ℤ))].length) 5)) :=
  ⟨C9_replay_state.1 emptyEnv [Node.phoneme "aa" (.int 0) 0]
      (fun n hn => by
        simp only [List.mem_singleton] at hn
        exact ⟨"aa", .int 0, 0, hn, by decide⟩)
      3 (initState "." []) (by decide),
   C9_replay_state.2 c9State "ba" [("b", PyVal.int 0, (0 : ℤ))] [("aa", PyVal.int 0, (0 : ℤ))] [] 30 5
      (by with_unfolding_all rfl) (by decide) (by decide) (by decide)
      (List.cons_ne_nil _ _) (by decide)⟩



/-! ## Comment scanning (`Lexer.scan_comment`) -/

/-- The block-comment loop accepts a star-free interior and returns
the characters after the terminator. -/
theorem blockLoop_starless (inner rest : List Char) (h : ∀ c ∈ inner, c ≠ '*') :
    ∀ d, blockLoop (d :: (inner ++ '*' :: '/' :: rest)) = some rest := by
  induction inner with
  | nil => intro d; rfl
  | cons c inner ih =>
      intro d
      have hc : c ≠ '*' := h c (by simp)
      have ih2 := ih (fun x hx => h x (by simp [hx]))
      rw [blockLoop.eq_def]
      simp only [List.cons_append]
      split
      all_goals
        rename_i heqn
      all_goals
        first
        | (injection heqn
           done)
        | (injection heqn with e1 e2
           first
           | (injection e2
              done)
           | (injection e2 with e3 e4
              first
              | exact absurd e3 hc
              | (subst e3
                 subst e4
                 exact ih2 c)))

/-- Dropping up to the first newline runs through a newline-free
prefix. -/
theorem dropWhile_no_newline (body u2 : List Char) (hb : ∀ c ∈ body, c ≠ '\n') :
    (body ++ '\n' :: u2).dropWhile (fun c => c ≠ '\n') = '\n' :: u2 := by
  induction body with
  | nil => simp [List.dropWhile_cons]
  | cons c t ih =>
      have hc : c ≠ '\n' := hb c (by simp)
      simp only [List.cons_append, List.dropWhile_cons]
      rw [if_pos (by simp [hc])]
      exact ih (fun x hx => hb x (by simp [hx]))

/-- Dropping up to the first newline exhausts a newline-free list. -/
theorem dropWhile_no_newline_all (body : List Char) (hb : ∀ c ∈ body, c ≠ '\n') :
    body.dropWhile (fun c => c ≠ '\n') = [] := by
  induction body with
  | nil => rfl
  | cons c t ih =>
      have hc : c ≠ '\n' := hb c (by simp)
      simp only [List.dropWhile_cons]
      rw [if_pos (by simp [hc])]
      exact ih (fun x hx => hb x (by simp [hx]))

/-- On a comment-only source (star-free block interiors) the token
loop yields exactly the EOF token, for any sufficient fuel. -/
theorem lexLoop_comment_only (l : List Char) (h : CommentOnly l) :
    ∀ fuel, l.length + 2 ≤ fuel → lexLoop fuel l = .ok [Token.eof] := by
  induction h with
  | nil =>
      intro fuel hf
      obtain ⟨f, rfl⟩ : ∃ f, fuel = f + 1 := ⟨fuel - 1, by omega⟩
      rw [lexLoop]
      rfl
  | ws c rest hc hrest ih =>
      intro fuel hf
      obtain ⟨f, rfl⟩ : ∃ f, fuel = f + 1 := ⟨fuel - 1, by omega⟩
      rw [lexLoop]
      dsimp only
      rw [if_pos hc]
      exact ih f (by simp at hf; omega)
  | line body rest hb hrest ih =>
      intro fuel hf
      obtain ⟨g, rfl⟩ : ∃ g, fuel = g + 1 + 1 := ⟨fuel - 2, by simp at hf; omega⟩
      rw [lexLoop]
      dsimp only
      rw [if_neg (by decide), if_pos rfl]
      rw [scanComment]
      rw [dropWhile_no_newline body rest hb]
      simp only [pure_eq, bind_ok]
      obtain ⟨g2, rfl⟩ : ∃ g2, g = g2 + 1 := ⟨g - 1, by simp at hf; omega⟩
      rw [lexLoop]
      dsimp only
      rw [if_pos (by decide)]
      exact ih (g2 + 1) (by simp at hf; omega)
  | lineEnd body hb =>
      intro fuel hf
      obtain ⟨g, rfl⟩ : ∃ g, fuel = g + 1 + 1 := ⟨fuel - 2, by simp at hf; omega⟩
      rw [lexLoop]
      dsimp only
      rw [if_neg (by decide), if_pos rfl]
      rw [scanComment]
      rw [dropWhile_no_newline_all body hb]
      simp only [pure_eq, bind_ok]
      obtain ⟨g2, rfl⟩ : ∃ g2, g = g2 + 1 := ⟨g - 1, by simp at hf; omega⟩
      rw [lexLoop]
      rfl
  | block inner rest hi hrest ih =>
      intro fuel hf
      obtain ⟨g, rfl⟩ : ∃ g, fuel = g + 1 + 1 := ⟨fuel - 2, by simp at hf; omega⟩
      rw [lexLoop]
      dsimp only
      rw [if_neg (by decide), if_pos rfl]
      rw [scanComment]
      rw [blockLoop_starless inner rest hi '*']
      simp only [pure_eq, bind_ok]
      exact ih (g + 1) (by simp at hf; omega)

/-! ## Claim C7 -/

/-- Claim C7 (counterexample): the source consisting of the single
block comment with interior one asterisk is comment-only in the
claimed sense (it is closed by the first following terminator), yet
the lexer consumes the interior pairwise, misses the terminator, and
raises - in fact the buggy raise of C8, a Python TypeError - instead
of yielding exactly one EOF token. -/
theorem C7_counterexample_block_comment_star :
    ClaimCommentOnly "/***/".toList
    ∧ getTokens "/***/".toList =
        .error (.typeError
          "LoggingPositionalException.__init__ missing 1 required positional argument: details")
    ∧ (Except.error (PyErr.typeError
          "LoggingPositionalException.__init__ missing 1 required positional argument: details")
        : Except PyErr (List Token)) ≠ .ok [Token.eof] :=
  ⟨show ClaimCommentOnly ('/' :: '*' :: (['*'] ++ '*' :: '/' :: [])) from
      .block ['*'] [] (by decide) .nil,
   rfl, fun h => Except.noConfusion h⟩

/-- Claim C7 (amended): for every source consisting only of
whitespace, line comments, and block comments whose interior contains
no asterisk, the lexer succeeds and yields exactly one EOF token and
no other tokens. -/
theorem C7_comment_only_lexes_to_eof (l : List Char) (h : CommentOnly l) :
    getTokens l = .ok [Token.eof] :=
  lexLoop_comment_only l h (2 * l.length + 2) (by omega)

/-- Witness for C7 at the source consisting of one star-free block
comment. -/
theorem C7_comment_only_lexes_to_eof_witness :
    getTokens "/*ab*/".toList = .ok [Token.eof] :=
  C7_comment_only_lexes_to_eof "/*ab*/".toList
    (show CommentOnly ('/' :: '*' :: (['a', 'b'] ++ '*' :: '/' :: [])) from
      .block ['a', 'b'] [] (by decide) .nil)



/-! ## Round-tripping node renderings (claim C4) -/

/-- Characters of the decimal rendering of a natural number. -/
theorem natRepr_toList_digits (n : ℕ) :
    ∀ c ∈ (natRepr n).toList, isDigitCh c = true := by
  intro c hc
  rw [natRepr] at hc
  by_cases h0 : n = 0
  · rw [if_pos h0] at hc
    simp at hc
    subst hc
    decide
  · rw [if_neg h0] at hc
    have hc2 : c ∈ natDigitChars n := hc
    rw [natDigitChars] at hc2
    simp only [List.mem_reverse, List.mem_map] at hc2
    obtain ⟨d, hd, rfl⟩ := hc2
    have hdlt : d < 10 := Nat.digits_lt_base (by norm_num) hd
    interval_cases d <;> decide

/-- Digit characters are never break characters. -/
theorem digit_not_break (c : Char) (h : isDigitCh c = true) : isBreak c = false := by
  rw [isDigitCh] at h
  have h2 : c ∈ ['0', '1', '2', '3', '4', '5', '6', '7', '8', '9'] := of_decide_eq_true h
  fin_cases h2 <;> decide

/-- The decimal rendering of a natural number is nonempty. -/
theorem natRepr_toList_ne_nil (n : ℕ) : (natRepr n).toList ≠ [] := by
  rw [natRepr]
  by_cases h0 : n = 0
  · rw [if_pos h0]
    decide
  · rw [if_neg h0]
    show natDigitChars n ≠ []
    rw [natDigitChars]
    simp only [ne_eq, List.reverse_eq_nil_iff, List.map_eq_nil_iff]
    exact Nat.digits_ne_nil_iff_ne_zero.mpr h0

/-- Re-reading the decimal rendering of a natural number recovers the
number. -/
theorem natOfDigitChars_natRepr (n : ℕ) : natOfDigitChars (natRepr n).toList = n := by
  rw [natRepr]
  by_cases h0 : n = 0
  · rw [if_pos h0, h0]
    decide
  · rw [if_neg h0]
    show natOfDigitChars (natDigitChars n) = n
    rw [natOfDigitChars, natDigitChars, List.foldl_reverse]
    have key : ∀ (ds : List ℕ), (∀ d ∈ ds, d < 10) → ∀ (a : ℕ),
        List.foldr (fun c acc => 10 * acc + (c.toNat - 48))
          a (ds.map (fun d => Char.ofNat (48 + d)))
        = a * 10 ^ ds.length + Nat.ofDigits 10 ds := by
      intro ds
      induction ds with
      | nil => intro _ a; simp [Nat.ofDigits]
      | cons d ds ih =>
          intro hd a
          have hdlt : d < 10 := hd d (by simp)
          have hchar : (Char.ofNat (48 + d)).toNat - 48 = d := by
            interval_cases d <;> decide
          simp only [List.map_cons, List.foldr_cons, hchar,
            ih (fun x hx => hd x (by simp [hx])) a]
          rw [Nat.ofDigits_cons]
          simp only [List.length_cons, pow_succ]
          ring
    rw [key (Nat.digits 10 n) (fun d hd => Nat.digits_lt_base (by norm_num) hd) 0]
    simp [Nat.ofDigits_digits]

/-- `dropWhile` runs through a prefix on which the predicate holds. -/
theorem dropWhile_all_append {α : Type} (p : α → Bool) (l1 l2 : List α)
    (h : ∀ a ∈ l1, p a = true) :
    (l1 ++ l2).dropWhile p = l2.dropWhile p := by
  induction l1 with
  | nil => simp
  | cons a l ih =>
      simp only [List.cons_append, List.dropWhile_cons, h a (by simp)]
      simp only [if_true]
      exact ih (fun x hx => h x (by simp [hx]))

/-- `read_remaining` consumes exactly a break-free word. -/
theorem readRemaining_word (w rest : List Char)
    (hwb : ∀ c ∈ w, isBreak c = false) (hrest : RestOk rest) (g : ℕ) :
    readRemaining (g + 1) (w ++ rest) = .ok (String.mk w, rest) := by
  have htake : (w ++ rest).takeWhile (fun c => !isBreak c) = w := by
    rw [takeWhile_all_append _ _ _ (fun c hc => by simp [hwb c hc])]
    rcases hrest with rfl | ⟨c, t, rfl, hbr, _⟩
    · simp
    · simp [List.takeWhile_cons, hbr]
  have hdrop : (w ++ rest).dropWhile (fun c => !isBreak c) = rest := by
    rw [dropWhile_all_append _ _ _ (fun c hc => by simp [hwb c hc])]
    rcases hrest with rfl | ⟨c, t, rfl, hbr, _⟩
    · simp
    · simp [List.dropWhile_cons, hbr]
  rw [readRemaining]
  dsimp only
  rw [htake, hdrop]
  rcases hrest with rfl | ⟨c, t, rfl, _, hslash⟩
  · rfl
  · split
    · rename_i heqn
      injection heqn with e1 e2
      exact absurd e1 hslash
    · rfl

/-- `scan_string` tokenizes a break-free word. -/
theorem scanString_word (w rest : List Char)
    (hwb : ∀ c ∈ w, isBreak c = false) (hrest : RestOk rest) (g : ℕ) :
    scanString (g + 1) (w ++ rest) = .ok (.str (String.mk w), rest) := by
  rw [scanString, readRemaining_word w rest hwb hrest g]
  rfl

/-- The number-scanning loop consumes exactly a digit run. -/
theorem scanNumberLoop_digits (ds : List Char) (hds : ∀ c ∈ ds, isDigitCh c = true)
    (rest : List Char) (hrest : RestOk rest) :
    ∀ fuel num fp, ds.length + 1 ≤ fuel →
      scanNumberLoop fuel (ds ++ rest) num fp = .ok (numberToken (num ++ ds) fp, rest) := by
  induction ds with
  | nil =>
      intro fuel num fp hf
      obtain ⟨f, rfl⟩ : ∃ f, fuel = f + 1 := ⟨fuel - 1, by omega⟩
      rw [scanNumberLoop.eq_def]
      simp only [List.nil_append]
      rcases hrest with rfl | ⟨c, t, rfl, hbr, _⟩
      · simp
      · dsimp only
        rw [if_pos hbr]
        simp
  | cons d ds ih =>
      intro fuel num fp hf
      obtain ⟨f, rfl⟩ : ∃ f, fuel = f + 1 := ⟨fuel - 1, by omega⟩
      have hd : isDigitCh d = true := hds d (by simp)
      rw [scanNumberLoop.eq_def]
      simp only [List.cons_append]
      rw [if_neg (by simp [digit_not_break d hd]), if_pos hd]
      rw [ih (fun x hx => hds x (by simp [hx])) f (num ++ [d]) fp (by simp at hf ⊢; omega)]
      simp

/-- `scan_number` tokenizes a digit run. -/
theorem scanNumber_digits (ds : List Char) (hds : ∀ c ∈ ds, isDigitCh c = true)
    (rest : List Char) (hrest : RestOk rest) (fuel : ℕ) (hf : ds.length + 1 ≤ fuel) :
    scanNumber fuel (ds ++ rest) = .ok (.int (natOfDigitChars ds), rest) := by
  rw [scanNumber, scanNumberLoop_digits ds hds rest hrest fuel [] false hf]
  rfl

/-- Digit characters are not whitespace. -/
theorem digit_not_ws (c : Char) (h : isDigitCh c = true) : c ∉ WHITESPACE := by
  have h2 : c ∈ ['0', '1', '2', '3', '4', '5', '6', '7', '8', '9'] := of_decide_eq_true h
  fin_cases h2 <;> decide

/-- Digit characters are not the comment trigger. -/
theorem digit_ne_slash (c : Char) (h : isDigitCh c = true) : ¬ c = '/' := by
  have h2 : c ∈ ['0', '1', '2', '3', '4', '5', '6', '7', '8', '9'] := of_decide_eq_true h
  fin_cases h2 <;> decide

/-- Digit characters are not special-character tokens. -/
theorem digit_special_none (c : Char) (h : isDigitCh c = true) : specialToken c = none := by
  have h2 : c ∈ ['0', '1', '2', '3', '4', '5', '6', '7', '8', '9'] := of_decide_eq_true h
  fin_cases h2 <;> decide

/-- Non-break characters are not whitespace, not the comment trigger,
and not special-character tokens. -/
theorem nonbreak_not_ws (c : Char) (h : isBreak c = false) : c ∉ WHITESPACE := by
  intro hw
  rw [isBreak] at h
  have : c ∈ BREAK_CHARS := by
    rw [BREAK_CHARS]
    simp [hw]
  simp [this] at h

/-- Non-break characters are not the comment trigger. -/
theorem nonbreak_ne_slash (c : Char) (h : isBreak c = false) : ¬ c = '/' := by
  intro hw
  subst hw
  simp [isBreak, BREAK_CHARS, WHITESPACE, SPECIAL_CHARACTERS] at h

/-- Non-break characters have no special-character token. -/
theorem nonbreak_special_none (c : Char) (h : isBreak c = false) : specialToken c = none := by
  rw [isBreak] at h
  rw [specialToken]
  have hmem : c ∉ BREAK_CHARS := by
    intro hm
    simp [hm] at h
  rw [BREAK_CHARS, WHITESPACE, SPECIAL_CHARACTERS] at hmem
  simp at hmem
  obtain ⟨-, -, -, -, h1, h2, h3, h4, h5, h6, h7, -⟩ := hmem
  rw [if_neg h1, if_neg h2, if_neg h3, if_neg h4, if_neg h5, if_neg h6, if_neg h7]

/-- The parameter stream followed by the closing bracket is a valid
scan stop. -/
theorem paramsChars_restOk (params : List PyVal) : RestOk (paramsChars params ++ [']']) := by
  cases params with
  | nil => exact .inr ⟨']', [], rfl, by decide, by decide⟩
  | cons p ps =>
      exact .inr ⟨' ', (pyValRepr p).toList ++ (paramsChars ps ++ [']']),
        by simp [paramsChars], by decide, by decide⟩

/-- Rendering a nonnegative integer parameter is the natural-number
rendering. -/
theorem pyValRepr_natInt (n : ℕ) : pyValRepr (.int (n : ℤ)) = natRepr n := by
  rw [pyValRepr, intRepr, if_neg (by omega)]
  simp

/-- The token loop turns a rendered parameter list plus closing
bracket into the corresponding tokens, the closing bracket token, and
the EOF token. -/
theorem lexLoop_params (params : List PyVal) (h : ∀ p ∈ params, ParamOk p) :
    ∀ fuel, (paramsChars params).length + 2 ≤ fuel →
      lexLoop fuel (paramsChars params ++ [']'])
        = .ok (params.map paramTok ++ [.rbracket, .eof]) := by
  induction params with
  | nil =>
      intro fuel hf
      obtain ⟨f, rfl⟩ : ∃ f, fuel = f + 1 + 1 := ⟨fuel - 2, by omega⟩
      show lexLoop (f + 1 + 1) [']'] = .ok [.rbracket, .eof]
      rw [lexLoop]
      dsimp only
      rw [if_neg (by decide), if_neg (by decide),
        show specialToken ']' = some Token.rbracket from rfl]
      dsimp only
      rw [lexLoop]
      rfl
  | cons p ps ih =>
      intro fuel hf
      obtain ⟨f, rfl⟩ : ∃ f, fuel = f + 1 := ⟨fuel - 1, by omega⟩
      have htext : paramsChars (p :: ps) ++ [']']
          = ' ' :: ((pyValRepr p).toList ++ (paramsChars ps ++ [']'])) := by
        simp [paramsChars]
      rw [htext, lexLoop]
      dsimp only
      rw [if_pos (show ' ' ∈ WHITESPACE by decide)]
      obtain ⟨g, rfl⟩ : ∃ g, f = g + 1 := ⟨f - 1, by simp [paramsChars] at hf; omega⟩
      have hlen : (paramsChars (p :: ps)).length
          = 1 + (pyValRepr p).toList.length + (paramsChars ps).length := by
        simp [paramsChars]
        omega
      rcases h p (by simp) with ⟨n, rfl⟩ | ⟨c, cs, rfl, hdg, hnb⟩
      · rw [pyValRepr_natInt n]
        obtain ⟨d, w', hw⟩ : ∃ d w', (natRepr n).toList = d :: w' := by
          cases hnn : (natRepr n).toList with
          | nil => exact absurd hnn (natRepr_toList_ne_nil n)
          | cons a l => exact ⟨a, l, rfl⟩
        have hdig : ∀ c ∈ d :: w', isDigitCh c = true := by
          rw [← hw]
          exact natRepr_toList_digits n
        have hd : isDigitCh d = true := hdig d (by simp)
        rw [hw]
        simp only [List.cons_append]
        rw [lexLoop]
        dsimp only
        rw [if_neg (by simp [digit_not_ws d hd]), if_neg (digit_ne_slash d hd),
          digit_special_none d hd]
        dsimp only
        rw [if_pos hd]
        have hfl : w'.length + 1 + ((paramsChars ps).length + 1) ≤ g := by
          rw [pyValRepr_natInt n, hw] at hlen
          rw [hlen] at hf
          simp only [List.length_cons] at hf
          omega
        have hscan := scanNumber_digits (d :: w') hdig (paramsChars ps ++ [']'])
          (paramsChars_restOk ps) g
          (by simp only [List.length_cons]; omega)
        simp only [List.cons_append] at hscan
        rw [hscan]
        simp only [bind_ok]
        rw [ih (fun x hx => h x (by simp [hx])) g (by omega)]
        simp only [bind_ok]
        have hval : natOfDigitChars (d :: w') = n := by
          rw [← hw]; exact natOfDigitChars_natRepr n
        rw [hval]
        show Except.ok ((Token.int n :: (ps.map paramTok ++ [.rbracket, .eof])))
          = Except.ok (paramTok (.int (n : ℤ)) :: (ps.map paramTok ++ [.rbracket, .eof]))
        rw [show paramTok (.int (n : ℤ)) = .int n by simp [paramTok]]
      · have hpv : pyValRepr (.str (String.mk (c :: cs))) = String.mk (c :: cs) := rfl
        rw [hpv]
        have hc : isBreak c = false := hnb c (by simp)
        have hwl : (String.mk (c :: cs)).toList = c :: cs := rfl
        rw [hwl]
        simp only [List.cons_append]
        rw [lexLoop]
        dsimp only
        rw [if_neg (by simp [nonbreak_not_ws c hc]), if_neg (nonbreak_ne_slash c hc),
          nonbreak_special_none c hc]
        dsimp only
        rw [if_neg (by simp [hdg])]
        have hfl : cs.length + 1 + ((paramsChars ps).length + 1) ≤ g := by
          rw [show (pyValRepr (.str (String.mk (c :: cs)))).toList = c :: cs from rfl] at hlen
          rw [hlen] at hf
          simp only [List.length_cons] at hf
          omega
        obtain ⟨g2, rfl⟩ : ∃ g2, g = g2 + 1 := ⟨g - 1, by omega⟩
        have hscan := scanString_word (c :: cs) (paramsChars ps ++ [']']) hnb
          (paramsChars_restOk ps) g2
        simp only [List.cons_append] at hscan
        rw [hscan]
        simp only [bind_ok]
        rw [ih (fun x hx => h x (by simp [hx])) (g2 + 1) (by omega)]
        simp only [bind_ok]
        rfl

/-- `String.join` concatenates the character data. -/
theorem join_data (l : List String) :
    (String.join l).data = (l.map String.data).flatten := by
  have key : ∀ (l : List String) (a : String),
      (l.foldl (fun r s => r ++ s) a).data = a.data ++ (l.map String.data).flatten := by
    intro l
    induction l with
    | nil => intro a; simp
    | cons s t ih =>
        intro a
        simp only [List.foldl_cons, List.map_cons, List.flatten_cons, ih (a ++ s)]
        simp
  exact key l ""

/-- The rendering of a context-free command, character by
character. -/
theorem reprNode_command_chars (name : String) (params : List PyVal) :
    (reprNode (.command name params [])).toList = cmdChars name params := by
  rw [reprNode]
  rw [if_neg (by simp)]
  show ("[:" ++ name ++ String.join (params.map (fun p => " " ++ pyValRepr p)) ++ "]").data
    = cmdChars name params
  simp only [String.data_append, join_data, List.map_map, cmdChars, paramsChars]
  show '[' :: ':' :: (name.data
      ++ (params.map (String.data ∘ fun p => " " ++ pyValRepr p)).flatten ++ [']'])
    = '[' :: ':' :: (name.toList ++ ((params.map (fun p => ' ' :: (pyValRepr p).toList)).flatten ++ [']']))
  have hmap : params.map (String.data ∘ fun p => " " ++ pyValRepr p)
      = params.map (fun p => ' ' :: (pyValRepr p).toList) := by
    apply List.map_congr_left
    intro p _
    show (" " ++ pyValRepr p).data = ' ' :: (pyValRepr p).toList
    simp [String.data_append]
  rw [hmap, List.append_assoc]
  rfl

/-- The token loop on a rendered context-free command. -/
theorem lexLoop_command (name : String) (params : List PyVal)
    (hname : ∀ c ∈ name.toList, isBreak c = false)
    (hp : ∀ p ∈ params, ParamOk p) :
    ∀ fuel, (cmdChars name params).length + 2 ≤ fuel →
      lexLoop fuel (cmdChars name params)
        = .ok (.lbracket :: .str (String.mk (':' :: name.toList))
            :: (params.map paramTok ++ [.rbracket, .eof])) := by
  intro fuel hf
  have hlen : (cmdChars name params).length
      = name.toList.length + (paramsChars params).length + 3 := by
    simp [cmdChars]
    omega
  obtain ⟨g2, rfl⟩ : ∃ g2, fuel = g2 + 1 + 1 + 1 := ⟨fuel - 3, by omega⟩
  rw [cmdChars, lexLoop]
  dsimp only
  rw [if_neg (by decide), if_neg (by decide),
    show specialToken '[' = some Token.lbracket from rfl]
  dsimp only
  rw [lexLoop]
  dsimp only
  rw [if_neg (by decide), if_neg (by decide),
    show specialToken ':' = (none : Option Token) from rfl]
  dsimp only
  rw [if_neg (by decide)]
  have hscan := scanString_word (':' :: name.toList) (paramsChars params ++ [']'])
    (by
      intro x hx
      rcases List.mem_cons.mp hx with rfl | hx2
      · decide
      · exact hname x hx2)
    (paramsChars_restOk params) g2
  simp only [List.cons_append] at hscan
  rw [hscan]
  simp only [bind_ok]
  rw [lexLoop_params params hp (g2 + 1) (by rw [hlen] at hf; omega)]
  simp only [bind_ok]
  rfl

/-- The parameter loop of the parser inverts `paramTok` on round-trip
parameters. -/
theorem parseParams_roundtrip (params : List PyVal) (h : ∀ p ∈ params, ParamOk p)
    (rest : List Token) :
    parseParams (params.map paramTok ++ (.rbracket :: rest)) = .ok (params, rest) := by
  induction params with
  | nil => rfl
  | cons p ps ih =>
      have ih2 := ih (fun x hx => h x (by simp [hx]))
      rcases h p (by simp) with ⟨n, rfl⟩ | ⟨c, cs, rfl, -, -⟩
      · simp only [List.map_cons, List.cons_append]
        rw [show paramTok (.int (n : ℤ)) = .int n by simp [paramTok]]
        rw [parseParams, ih2]
        simp
      · simp only [List.map_cons, List.cons_append]
        rw [show paramTok (.str (String.mk (c :: cs))) = .str (String.mk (c :: cs)) from rfl]
        rw [parseParams, ih2]
        simp

/-- The parser inverts the lexed rendering of a context-free
command. -/
theorem parseTokens_command (name : String) (params : List PyVal)
    (hne : name ≠ "") (hvoice : name ≠ "voice") (h : ∀ p ∈ params, ParamOk p) :
    parseTokens (.lbracket :: .str (String.mk (':' :: name.toList))
        :: (params.map paramTok ++ [.rbracket, .eof]))
      = .ok [.command name params [], .eof] := by
  rw [parseTokens]
  obtain ⟨g, hfe⟩ : ∃ g, 2 * (Token.lbracket :: Token.str (String.mk (':' :: name.toList))
      :: (params.map paramTok ++ [.rbracket, .eof])).length + 2 = g + 1 + 1 + 1 :=
    ⟨2 * (params.map paramTok ++ [Token.rbracket, Token.eof]).length + 3, by
      simp only [List.length_cons]
      omega⟩
  rw [hfe, parseLoop]
  dsimp only
  rw [parseCommand.eq_def]
  dsimp only
  rw [show (String.mk (':' :: name.toList)).toList = ':' :: name.toList from rfl]
  dsimp only
  rw [if_neg (by simp)]
  rw [if_neg (by
    intro hv
    apply hne
    have h2 := congrArg String.data hv
    simp at h2
    exact String.ext h2)]
  rw [if_neg (by
    intro hv
    apply hvoice
    have h2 := congrArg String.data hv
    simp at h2
    exact String.ext h2)]
  rw [show (params.map paramTok ++ [Token.rbracket, Token.eof])
      = params.map paramTok ++ (Token.rbracket :: [Token.eof]) from rfl]
  rw [parseParams_roundtrip params h [Token.eof]]
  simp only [bind_ok]
  have hpl : ∀ k : ℕ, parseLoop (k + 1) [Token.eof] = .ok [Node.eof] := by
    intro k
    rw [parseLoop]
    rfl
  simp only [pure_eq, bind_ok]
  rw [hpl (g + 1)]
  simp only [bind_ok, pure_eq]
  rfl

/-- Claim C4 (counterexample): the source b parses to a phoneme node,
whose re-encoding is the bracketed form; re-parsing that form fails
with a SyntaxError (a bracket opens a command, whose name must start
with a colon), so the node does not round-trip. -/
theorem C4_counterexample_phoneme_not_roundtrip :
    (getTokens "b".toList).bind parseTokens = .ok [.phoneme "b" (.int 0) 0, .eof]
    ∧ reprNode (.phoneme "b" (.int 0) 0) = "[b]"
    ∧ (getTokens "[b]".toList).bind parseTokens =
        .error (.parserError "SyntaxError" "Command b must start with : - try :b") :=
  ⟨by with_unfolding_all rfl, by with_unfolding_all rfl, by with_unfolding_all rfl⟩

/-- Claim C4 (amended): a context-free command node whose name is
nonempty, is not the voice production, and contains no break
characters, and whose parameters are nonnegative integers or nonempty
break-free strings not starting with a digit, re-encodes to text that
lexes and parses back to exactly that node (plus the EOF node).
Phoneme nodes do not round-trip: their re-encoding is bracketed
output form (the counterexample). -/
theorem C4_command_roundtrip (name : String) (params : List PyVal)
    (hne : name ≠ "") (hvoice : name ≠ "voice")
    (hname : ∀ c ∈ name.toList, isBreak c = false)
    (hp : ∀ p ∈ params, ParamOk p) :
    (getTokens (reprNode (.command name params [])).toList).bind parseTokens
      = .ok [.command name params [], .eof] := by
  rw [reprNode_command_chars, getTokens,
    lexLoop_command name params hname hp (2 * (cmdChars name params).length + 2) (by omega)]
  show parseTokens (.lbracket :: .str (String.mk (':' :: name.toList))
      :: (params.map paramTok ++ [.rbracket, .eof]))
    = .ok [.command name params [], .eof]
  exact parseTokens_command name params hne hvoice hp

/-- Witness for C4 at the command play with a string and an integer
parameter. -/
theorem C4_command_roundtrip_witness :
    (getTokens (reprNode (.command "play" [.str "file", .int 3] [])).toList).bind parseTokens
      = .ok [.command "play" [.str "file", .int 3] [], .eof] :=
  C4_command_roundtrip "play" [.str "file", .int 3]
    (by decide) (by decide) (by decide)
    (by
      intro p hp
      simp only [List.mem_cons, List.mem_singleton] at hp
      rcases hp with rfl | rfl | h
      · exact .inr ⟨'f', ['i', 'l', 'e'], by decide, by decide, by decide⟩
      · exact .inl ⟨3, by decide⟩
      · simp at h)

end OpenDec
